import Mathlib

/-!
# site.js: the lazy code loader and the keyboard shortcuts

A shallow embedding of `gw-server/static/js/site.js`.

* The loader (`createXMLHttpRequest`, `okFunc`, `getFuncCode`, lines 263-303)
  works on a `Page`: the two module-level variables `xmlHttp` and `funcName`,
  the part of the document the loader touches, and the heap of transport
  objects that were constructed so far.
* The keypress handler (lines 116-219) works on a `Keys` record: the script
  variables it reads and writes; its calls into the modal, animation and
  location APIs are recorded in order as a list of `Effect`s.

Modelling conventions.  A JavaScript call can throw after it has already
changed the state, so every operation returns the state it leaves behind
together with a `Completion`.  `innerHTML` of an element is a string cell:
the script assigns and compares it as a string, and whatever parsing the
browser performs on it is outside the script.  Where a property depends on
the script reading back what it assigned (the guard of line 289 after the
assignment of line 278), the browser's round trip from the assigned string to
the string read back is made explicit as a parameter `rb` (`okFuncRead`,
`notifyRead`).  The elements reachable through `getElementById` are taken to
be pairwise disjoint.
-/

namespace Site

/-! ## Data model of the loader -/

/-- How a call of a script function ends: it returns, or a `TypeError` is
thrown out of it (property access on `null` or `undefined`). -/
inductive Completion where
  | normal
  | typeError
  deriving DecidableEq, Repr

/-- A transport object (`XMLHttpRequest`, or the `Microsoft.XMLHTTP` ActiveX
object): the fields the script reads (`readyState`, `status`,
`responseText`) and what the script has told it (`open`, `setRequestHeader`,
`onreadystatechange`, `send`). -/
structure Handle where
  readyState : Nat
  status : Nat
  responseText : String
  method : String
  url : String
  async : Bool
  headers : List (String × String)
  onreadystatechange : Bool
  sent : Bool
  deriving DecidableEq, Repr

/-- A request as it goes out on the wire: method, URL and the async flag that
were given to `open`. -/
structure Request where
  method : String
  url : String
  async : Bool
  deriving DecidableEq, Repr

/-- The state the loader runs in.

* `activeXObject`, `xmlHttpRequest`: whether `window.ActiveXObject` and
  `window.XMLHttpRequest` are truthy;
* `pid`: `innerHTML` of the element with id `pid`, `none` when there is no
  such element;
* `regions`: the elements that have an id, in document order, each with the
  `innerHTML` of its descendant `<pre>` elements in document order
  (`getElementsByTagName("pre")`);
* `handles`: every transport object constructed so far, oldest first; a
  transport object is named by its position in this list;
* `xmlHttp`, `funcName`: the two module-level variables, `none` while they
  are `undefined`. -/
structure Page where
  activeXObject : Bool
  xmlHttpRequest : Bool
  pid : Option String
  regions : List (String × List String)
  handles : List Handle
  xmlHttp : Option Nat
  funcName : Option String
  deriving DecidableEq, Repr

/-- The contents of the `<pre>` descendants of `document.getElementById(id)`:
the first element carrying the id wins; `none` when the lookup gives `null`. -/
def getPres (id : String) : List (String × List String) → Option (List String)
  | [] => none
  | (k, v) :: rest => if k = id then some v else getPres id rest

/-- The assignment `nodes[0].innerHTML = html` for the nodes of the element
`id`: the first `<pre>` of the first element carrying the id is replaced,
everything else is kept. -/
def setFirstPre (id html : String) : List (String × List String) → List (String × List String)
  | [] => []
  | (k, v) :: rest =>
    if k = id then (k, html :: v.tail) :: rest else (k, v) :: setFirstPre id html rest

/-- Content of the first `<pre>` of the region of `name`, the element with
id `"collapse_" + name`; `none` when the element or the `<pre>` is missing. -/
def firstPre (name : String) (s : Page) : Option String :=
  match getPres ("collapse_" ++ name) s.regions with
  | some (c :: _) => some c
  | _ => none

/-- Apply `f` to the transport object at position `h`. -/
def modifyHandle (h : Nat) (f : Handle → Handle) : List Handle → List Handle
  | [] => []
  | x :: xs =>
    match h with
    | 0 => f x :: xs
    | h + 1 => x :: modifyHandle h f xs

/-- A freshly constructed transport object: state `UNSENT`, nothing set. -/
def freshHandle : Handle :=
  { readyState := 0, status := 0, responseText := "", method := "", url := "",
    async := false, headers := [], onreadystatechange := false, sent := false }

/-- The transport method `open(method, url, async)`: the object goes to state
`OPENED` and forgets any earlier exchange.  (The state-change event this may
fire on an object that already has a handler runs `okFunc` on an object in
state 1, which does nothing, so it is not recorded.) -/
def xhrOpen (method url : String) (async : Bool) (x : Handle) : Handle :=
  { x with readyState := 1, status := 0, responseText := "", method := method,
           url := url, async := async, headers := [], sent := false }

/-- The transport method `setRequestHeader(name, value)`. -/
def xhrSetRequestHeader (name value : String) (x : Handle) : Handle :=
  { x with headers := x.headers ++ [(name, value)] }

/-- The assignment `xmlHttp.onreadystatechange = okFunc`. -/
def xhrSetHandler (x : Handle) : Handle :=
  { x with onreadystatechange := true }

/-- The transport method `send()` without a body. -/
def xhrSend (x : Handle) : Handle :=
  { x with sent := true }

/-- The requests that went out, oldest first: one for every transport object
on which `send` was called. -/
def issued (s : Page) : List Request :=
  (s.handles.filter (fun x => x.sent)).map
    (fun x => { method := x.method, url := x.url, async := x.async })

/-- The string a possibly undefined variable contributes to `+`. -/
def jsString : Option String → String
  | some v => v
  | none => "undefined"

/-! ## The loader (lines 263-303) -/

/-- Lines 265-271: construct a transport object into `xmlHttp`, through
`ActiveXObject` when the window has it, else through `XMLHttpRequest` when
the window has that; otherwise `xmlHttp` keeps its value. -/
def createXMLHttpRequest (s : Page) : Page :=
  if s.activeXObject then
    { s with handles := s.handles ++ [freshHandle], xmlHttp := some s.handles.length }
  else if s.xmlHttpRequest then
    { s with handles := s.handles ++ [freshHandle], xmlHttp := some s.handles.length }
  else s

/-- The transport object the variable `xmlHttp` refers to; `none` while the
variable is `undefined`. -/
def currentHandle (s : Page) : Option Handle :=
  match s.xmlHttp with
  | none => none
  | some h => s.handles[h]?

/-- Lines 273-281: the `onreadystatechange` handler.  It reads the
module-level `xmlHttp` and `funcName`, and when `xmlHttp` is in ready state 4
with status 200 it assigns `xmlHttp.responseText` to the first `<pre>` of the
element `"collapse_" + funcName`. -/
def okFunc (s : Page) : Page × Completion :=
  match currentHandle s with
  | none => (s, .typeError)
  | some x =>
    if x.readyState = 4 then
      if x.status = 200 then
        match getPres ("collapse_" ++ jsString s.funcName) s.regions with
        | none => (s, .typeError)
        | some [] => (s, .typeError)
        | some (_ :: _) =>
          ({ s with regions :=
               setFirstPre ("collapse_" ++ jsString s.funcName) x.responseText s.regions },
           .normal)
      else (s, .normal)
    else (s, .normal)

/-- Lines 283-303: load the code of `name` unless its region already shows
something other than the placeholder. -/
def getFuncCode (name : String) (s : Page) : Page × Completion :=
  match getPres ("collapse_" ++ name) s.regions with
  | none => (s, .typeError)
  | some [] => (s, .typeError)
  | some (c :: _) =>
    if c ≠ "LOADING..." then (s, .normal)
    else
      let s1 := createXMLHttpRequest s
      let s2 : Page :=
        if s1.xmlHttp.isNone then
          { s1 with regions := setFirstPre ("collapse_" ++ name) "Fail to create XMLHTTP." s1.regions }
        else s1
      let s3 : Page := { s2 with funcName := some name }
      match s3.xmlHttp with
      | none => (s3, .typeError)
      | some h =>
        match s3.pid with
        | none => (s3, .typeError)
        | some p =>
          let open1 := xhrOpen "GET" ("/funcs?name=" ++ name ++ "&pid=" ++ p) true
          let hdr := xhrSetRequestHeader "Content-Type" "application/x-www-form-urlencoded"
          let hs := modifyHandle h
            (fun x => xhrSend (hdr (xhrSetHandler (open1 x)))) s3.handles
          ({ s3 with handles := hs }, .normal)

/-! ## The browser side: delivery of ready-state changes -/

/-- The transport object `h` takes ready state `rs`, status `st` and
response text `body`. -/
def receive (h rs st : Nat) (body : String) (s : Page) : Page :=
  let hs := modifyHandle h
    (fun y => { y with readyState := rs, status := st, responseText := body }) s.handles
  { s with handles := hs }

/-- The transport object `h` of an issued request changes to ready state
`rs` with status `st` and response text `body`, and its
`onreadystatechange` handler, when one is registered, runs. -/
def notify (h rs st : Nat) (body : String) (s : Page) : Page × Completion :=
  match s.handles[h]? with
  | none => (s, .normal)
  | some x =>
    if x.sent then
      if x.onreadystatechange then okFunc (receive h rs st body s)
      else (receive h rs st body s, .normal)
    else (s, .normal)

/-- Lines 273-281 with the browser's part of the assignment of line 278 made
explicit.  `innerHTML` is not a variable: the assigned string is parsed, and
a later read, such as the guard of line 289, yields the serialisation of what
was parsed (a character reference in the response comes back as the character
it names).  `rb` is that round trip, from the string assigned to the string
read back, and the document keeps what a read yields.  With `rb` the identity
this is `okFunc`. -/
def okFuncRead (rb : String → String) (s : Page) : Page × Completion :=
  match currentHandle s with
  | none => (s, .typeError)
  | some x =>
    if x.readyState = 4 then
      if x.status = 200 then
        match getPres ("collapse_" ++ jsString s.funcName) s.regions with
        | none => (s, .typeError)
        | some [] => (s, .typeError)
        | some (_ :: _) =>
          ({ s with regions :=
               setFirstPre ("collapse_" ++ jsString s.funcName) (rb x.responseText) s.regions },
           .normal)
      else (s, .normal)
    else (s, .normal)

/-- The delivery of a ready-state change as in `notify`, the handler being
`okFuncRead rb`. -/
def notifyRead (rb : String → String) (h rs st : Nat) (body : String) (s : Page) :
    Page × Completion :=
  match s.handles[h]? with
  | none => (s, .normal)
  | some x =>
    if x.sent then
      if x.onreadystatechange then okFuncRead rb (receive h rs st body s)
      else (receive h rs st body s, .normal)
    else (s, .normal)

/-- What can happen to the page: the script calls `getFuncCode`, or the
browser reports a ready-state change of a transport object. -/
inductive Event where
  | call (name : String)
  | ready (h rs st : Nat) (body : String)
  deriving DecidableEq, Repr

/-- One event; an error thrown out of a handler ends that handler only, the
page keeps the state it left. -/
def step (e : Event) (s : Page) : Page :=
  match e with
  | .call name => (getFuncCode name s).1
  | .ready h rs st body => (notify h rs st body s).1

/-- A sequence of events, first to last. -/
def run : List Event → Page → Page
  | [], s => s
  | e :: es, s => run es (step e s)

/-! ## Predicates used to state the properties of traces -/

/-- Line 289 read as a test: a call `getFuncCode name` gets past the guard
exactly when the first `<pre>` of the region holds the placeholder. -/
def passesGuard (name : String) (s : Page) : Bool :=
  decide (firstPre name s = some "LOADING...")

/-- The most recent call of a trace that got past the guard of line 289,
with the position of the transport object `createXMLHttpRequest` constructed
in that call (the end of the heap at the time of the call).  `acc` is the
answer for the events that came before the trace. -/
def lastPassed : List Event → Page → Option (String × Nat) → Option (String × Nat)
  | [], _, acc => acc
  | e :: es, s, acc =>
    lastPassed es (step e s)
      (match e with
       | .call n => if passesGuard n s then some (n, s.handles.length) else acc
       | .ready _ _ _ _ => acc)

/-- An event is a notification, not a call. -/
def Event.isReady : Event → Bool
  | .ready _ _ _ _ => true
  | .call _ => false

/-- A notification that does not report success: the ready state is not 4,
or the status is not 200. -/
def Event.isProgress : Event → Bool
  | .ready _ rs st _ => !(rs == 4 && st == 200)
  | .call _ => false

/-- What `lastPassed` promises about a state: with no call past the guard so
far nothing was constructed and `xmlHttp` is undefined; otherwise `funcName`
and `xmlHttp` hold the identifier and the transport object of that call, and
when the page has a page id that transport object carries the issued request
for the identifier. -/
def Tracks (s : Page) : Option (String × Nat) → Prop
  | none => s.handles = [] ∧ s.xmlHttp = none
  | some (m, k) =>
    s.funcName = some m ∧ s.xmlHttp = some k ∧
    ∃ x, s.handles[k]? = some x ∧
      ∀ p, s.pid = some p → x.sent = true ∧ x.url = "/funcs?name=" ++ m ++ "&pid=" ++ p

/-- The relation between the two module-level variables and the document
that holds in every state the page can reach.  Either no transport object
was ever constructed, or the window can construct one, every issued request
has the handler registered, `xmlHttp` refers to a transport object, `funcName`
names a region that has a first `<pre>`, and when that transport object is in
ready state 4 with status 200 the `<pre>` already holds its response text. -/
def Paired (s : Page) : Prop :=
  (s.handles = [] ∧ s.xmlHttp = none) ∨
  ((s.activeXObject = true ∨ s.xmlHttpRequest = true) ∧
   (∀ x ∈ s.handles, x.sent = true → x.onreadystatechange = true) ∧
   ∃ k x m c t, s.xmlHttp = some k ∧ s.handles[k]? = some x ∧ s.funcName = some m ∧
     getPres ("collapse_" ++ m) s.regions = some (c :: t) ∧
     (x.readyState = 4 → x.status = 200 → c = x.responseText))

/-! ## The keyboard shortcuts (lines 113-219) -/

/-- The four modal dialogs the handler addresses: `_ep` (export search),
`_tf` (label), `_ex` (example) and `_modal` (the shortcut help). -/
inductive Modal where
  | ep
  | tf
  | ex
  | keyshortcut
  deriving DecidableEq, Repr

/-- Where an animated scroll goes: `scrollTop: 0` or
`scrollTop: $("body").height()`. -/
inductive ScrollTarget where
  | top
  | bottom
  deriving DecidableEq, Repr

/-- The calls the handler makes into the page, as they appear in the source. -/
inductive Effect where
  | modalHide (m : Modal)
  | modalShow (m : Modal)
  | onShownFocus (m : Modal) (selector : String)
  | focusFirst (selector : String)
  | animate (target : ScrollTarget) (ms : Nat)
  | setHash (hash : String)
  | setTimeout (ms : Nat)
  deriving DecidableEq, Repr

/-- What the keypress handler reads: the number of focused inputs
(`$('input:focus').length`), whether `_ep`, `_tf`, `_ex` are non-null, and
the script variables `isProjectPage` and `preKeyG`. -/
structure Keys where
  focusedInputs : Nat
  ep : Bool
  tf : Bool
  ex : Bool
  isProjectPage : Nat
  preKeyG : Nat
  deriving DecidableEq, Repr

/-- A keypress event. -/
structure KeyEvent where
  keyCode : Nat
  charCode : Nat
  deriving DecidableEq, Repr

/-- Line 140: `event.keyCode ? event.keyCode : event.charCode`. -/
def keyOf (e : KeyEvent) : Nat :=
  if e.keyCode ≠ 0 then e.keyCode else e.charCode

/-- The statement `if (m) m.modal('hide')` for a modal that may be null. -/
def hideIf (present : Bool) (m : Modal) : List Effect :=
  if present then [.modalHide m] else []

/-- Lines 129-134: run the callback when the previous key was `g`, and clear
the flag in either case.  The callback is given by the calls it makes. -/
def GkeyCb (callback : List Effect) (k : Keys) : Keys × List Effect :=
  ({ k with preKeyG := 0 }, if k.preKeyG = 1 then callback else [])

/-- Lines 171-173: the function handed to `setTimeout`. -/
def resetPreKeyG (k : Keys) : Keys :=
  { k with preKeyG := 0 }

/-- Lines 136-219: the keypress handler.  It gives the script variables after
the key, the calls made in order, and the value returned (`none` for
`undefined`). -/
def keypress (e : KeyEvent) (k : Keys) : Keys × List Effect × Option Bool :=
  if k.focusedInputs ≠ 0 then (k, [], some true)
  else if keyOf e = 63 then
    (k, hideIf k.ep .ep ++ hideIf k.tf .tf ++ hideIf k.ex .ex ++ [.modalShow .keyshortcut], none)
  else if keyOf e = 47 then
    (k, hideIf k.ep .ep ++ hideIf k.tf .tf ++ hideIf k.ex .ex ++
          [.modalHide .keyshortcut, .focusFirst "input[name=q]"], some false)
  else if keyOf e = 46 ∧ k.isProjectPage ≠ 0 then
    (k, hideIf k.tf .tf ++ hideIf k.ex .ex ++ [.modalHide .keyshortcut] ++
          (if k.ep then [.modalShow .ep, .onShownFocus .ep "#search_export_box"] else []), none)
  else if keyOf e = 103 then
    let hides := hideIf k.ep .ep ++ hideIf k.tf .tf ++ hideIf k.ex .ex ++ [.modalHide .keyshortcut]
    if k.preKeyG = 0 then
      ({ k with preKeyG := 1 }, hides ++ [.setTimeout 2000], some false)
    else
      ((GkeyCb [.animate .top 120] k).1, hides ++ (GkeyCb [.animate .top 120] k).2, none)
  else if keyOf e = 98 then
    let hides := hideIf k.ep .ep ++ hideIf k.tf .tf ++ hideIf k.ex .ex ++ [.modalHide .keyshortcut]
    ((GkeyCb [.animate .bottom 120] k).1, hides ++ (GkeyCb [.animate .bottom 120] k).2, none)
  else if keyOf e = 105 then
    let hides := hideIf k.ep .ep ++ hideIf k.tf .tf ++ hideIf k.ex .ex ++ [.modalHide .keyshortcut]
    ((GkeyCb [.setHash "#_index"] k).1, hides ++ (GkeyCb [.setHash "#_index"] k).2, none)
  else if keyOf e = 116 then
    (k, hideIf k.ep .ep ++ hideIf k.ex .ex ++ [.modalHide .keyshortcut] ++
          (if k.tf then [.modalShow .tf, .onShownFocus .tf "#label_box"] else []), none)
  else if keyOf e = 101 then
    (k, hideIf k.ep .ep ++ hideIf k.tf .tf ++ [.modalHide .keyshortcut] ++
          (if k.ex then [.modalShow .ex, .onShownFocus .ex "#example_box"] else []), none)
  else (k, [], none)

/-! ## Example pages -/

/-- A page in a browser that has `XMLHttpRequest`: page id 42 and two
regions, `foo` and `bar`, that still show the placeholder. -/
def examplePage : Page :=
  { activeXObject := false, xmlHttpRequest := true, pid := some "42",
    regions := [("collapse_foo", ["LOADING..."]), ("collapse_bar", ["LOADING...", "x"])],
    handles := [], xmlHttp := none, funcName := none }

/-- The example page after the code of `foo` was put into its region. -/
def loadedPage : Page :=
  { examplePage with
    regions := [("collapse_foo", ["func foo()"]), ("collapse_bar", ["LOADING...", "x"])] }

/-- The example page in a browser that has neither `ActiveXObject` nor
`XMLHttpRequest`. -/
def bareBrowserPage : Page :=
  { examplePage with xmlHttpRequest := false }

/-- A round trip that decodes the character reference in the one body
`"LOADING&#46;.."` (`&#46;` names the full stop) and gives every other string
back as it is. -/
def decodeExample (b : String) : String :=
  if b = "LOADING&#46;.." then "LOADING..." else b

/-- A project page with all three optional modals present, no input focused
and no pending `g`. -/
def exampleKeys : Keys :=
  { focusedInputs := 0, ep := true, tf := true, ex := true, isProjectPage := 1, preKeyG := 0 }

/-! ## Small facts about the document and the transport heap -/

theorem getPres_setFirstPre_ne (id id2 html : String) (rs : List (String × List String))
    (h : id2 ≠ id) : getPres id2 (setFirstPre id html rs) = getPres id2 rs := by
  induction rs with
  | nil => rfl
  | cons kv rest ih =>
    obtain ⟨k, v⟩ := kv
    by_cases hk : k = id
    · have hk2 : ¬ k = id2 := fun e => h (e ▸ hk)
      simp only [setFirstPre, hk, if_true, getPres]
      rw [if_neg (fun e => h e.symm), if_neg (fun e => h e.symm)]
    · by_cases hk2 : k = id2
      · simp only [setFirstPre, if_neg hk, getPres, if_pos hk2]
      · simp only [setFirstPre, if_neg hk, getPres, if_neg hk2, ih]

theorem getPres_setFirstPre_eq (id html : String) (rs : List (String × List String))
    (v : List String) (h : getPres id rs = some v) :
    getPres id (setFirstPre id html rs) = some (html :: v.tail) := by
  induction rs with
  | nil => simp [getPres] at h
  | cons kv rest ih =>
    obtain ⟨k, w⟩ := kv
    by_cases hk : k = id
    · simp only [getPres, if_pos hk, Option.some.injEq] at h
      simp only [setFirstPre, if_pos hk, getPres, h]
    · simp only [getPres, if_neg hk] at h
      simp only [setFirstPre, if_neg hk, getPres, ih h]

theorem collapse_inj (a b : String) (h : "collapse_" ++ a = "collapse_" ++ b) : a = b := by
  have h2 := congrArg String.data h
  simp only [String.data_append] at h2
  exact String.ext (List.append_cancel_left h2)

theorem modifyHandle_length (h : Nat) (f : Handle → Handle) (hs : List Handle) :
    (modifyHandle h f hs).length = hs.length := by
  induction hs generalizing h with
  | nil => simp [modifyHandle]
  | cons x xs ih => cases h <;> simp [modifyHandle, ih]

theorem modifyHandle_append_last (f : Handle → Handle) (hs : List Handle) (x : Handle) :
    modifyHandle hs.length f (hs ++ [x]) = hs ++ [f x] := by
  induction hs with
  | nil => rfl
  | cons y ys ih => simp [modifyHandle, ih]

theorem modifyHandle_get_eq (h : Nat) (f : Handle → Handle) (hs : List Handle) (x : Handle)
    (hx : hs[h]? = some x) : (modifyHandle h f hs)[h]? = some (f x) := by
  induction hs generalizing h with
  | nil => simp at hx
  | cons y ys ih =>
    cases h with
    | zero => simp at hx; simp [modifyHandle, hx]
    | succ n => simp at hx; simp [modifyHandle, ih n hx]

theorem modifyHandle_get_ne (h j : Nat) (f : Handle → Handle) (hs : List Handle)
    (hj : j ≠ h) : (modifyHandle h f hs)[j]? = hs[j]? := by
  induction hs generalizing h j with
  | nil => simp [modifyHandle]
  | cons y ys ih =>
    cases h with
    | zero =>
      cases j with
      | zero => exact absurd rfl hj
      | succ m => simp [modifyHandle]
    | succ n =>
      cases j with
      | zero => simp [modifyHandle]
      | succ m => simp [modifyHandle]; exact ih n m (fun e => hj (by rw [e]))

theorem firstPre_eq_some (n c : String) (s : Page) :
    firstPre n s = some c ↔ ∃ t, getPres ("collapse_" ++ n) s.regions = some (c :: t) := by
  unfold firstPre
  constructor
  · intro h
    split at h
    · next c2 t heq => simp at h; exact ⟨t, by rw [heq, h]⟩
    · simp at h
  · rintro ⟨t, ht⟩
    rw [ht]

theorem createXMLHttpRequest_ok (s : Page)
    (hc : s.activeXObject = true ∨ s.xmlHttpRequest = true) :
    createXMLHttpRequest s =
      { s with handles := s.handles ++ [freshHandle], xmlHttp := some s.handles.length } := by
  unfold createXMLHttpRequest
  rcases hc with h | h
  · simp [h]
  · by_cases h2 : s.activeXObject = true <;> simp [h, h2]

theorem getFuncCode_request (n p : String) (s : Page)
    (hs : firstPre n s = some "LOADING...") (hp : s.pid = some p)
    (hc : s.activeXObject = true ∨ s.xmlHttpRequest = true) :
    getFuncCode n s =
      ({ s with
          handles := s.handles ++
            [xhrSend (xhrSetRequestHeader "Content-Type" "application/x-www-form-urlencoded"
              (xhrSetHandler
                (xhrOpen "GET" ("/funcs?name=" ++ n ++ "&pid=" ++ p) true freshHandle)))],
          xmlHttp := some s.handles.length,
          funcName := some n }, .normal) := by
  obtain ⟨t, ht⟩ := (firstPre_eq_some n _ s).1 hs
  unfold getFuncCode
  rw [ht]
  simp only [createXMLHttpRequest_ok s hc, ne_eq, not_true_eq_false, if_false,
    Option.isNone_some, hp]
  simp only [Bool.false_eq_true, if_false]
  rw [modifyHandle_append_last]

/-! ## The loader: one call -/

theorem getFuncCode_skip (n c : String) (s : Page)
    (hc : firstPre n s = some c) (hne : c ≠ "LOADING...") :
    getFuncCode n s = (s, Completion.normal) := by
  obtain ⟨t, ht⟩ := (firstPre_eq_some n c s).1 hc
  unfold getFuncCode
  rw [ht]
  simp [hne]

theorem issued_after_request (n p : String) (s : Page)
    (hs : firstPre n s = some "LOADING...") (hp : s.pid = some p)
    (hc : s.activeXObject = true ∨ s.xmlHttpRequest = true) :
    issued (getFuncCode n s).1 = issued s ++
      [{ method := "GET", url := "/funcs?name=" ++ n ++ "&pid=" ++ p, async := true }] := by
  rw [getFuncCode_request n p s hs hp hc]
  simp [issued, xhrSend, xhrSetRequestHeader, xhrSetHandler, xhrOpen, freshHandle]

/-- C1: when the first `<pre>` of the region of `n` holds anything other than
`"LOADING..."`, `getFuncCode n` returns normally and leaves the whole page
state as it was (document, transport heap, `xmlHttp`, `funcName`), so the
list of issued requests is the same as before. -/
theorem getFuncCode_loaded_noop (n c : String) (s : Page)
    (hc : firstPre n s = some c) (hne : c ≠ "LOADING...") :
    getFuncCode n s = (s, Completion.normal) ∧ issued (getFuncCode n s).1 = issued s :=
  ⟨getFuncCode_skip n c s hc hne, by rw [getFuncCode_skip n c s hc hne]⟩

/-- Witness of C1 on the page whose region `foo` is already loaded. -/
theorem getFuncCode_loaded_noop_witness :
    firstPre "foo" loadedPage = some "func foo()" ∧ "func foo()" ≠ "LOADING..." ∧
    getFuncCode "foo" loadedPage = (loadedPage, Completion.normal) ∧
    issued (getFuncCode "foo" loadedPage).1 = issued loadedPage :=
  ⟨by decide, by decide,
   getFuncCode_loaded_noop "foo" "func foo()" loadedPage (by decide) (by decide)⟩

/-- C2: when the first `<pre>` of the region of `n` holds exactly
`"LOADING..."`, the page id element holds `p` and the window has one of the
two transport constructors, `getFuncCode n` returns normally and the issued
requests grow by exactly one: an asynchronous `GET` of
`"/funcs?name=" ++ n ++ "&pid=" ++ p`. -/
theorem getFuncCode_issues_one (n p : String) (s : Page)
    (hs : firstPre n s = some "LOADING...") (hp : s.pid = some p)
    (hc : s.activeXObject = true ∨ s.xmlHttpRequest = true) :
    (getFuncCode n s).2 = Completion.normal ∧
    issued (getFuncCode n s).1 = issued s ++
      [{ method := "GET", url := "/funcs?name=" ++ n ++ "&pid=" ++ p, async := true }] :=
  ⟨by rw [getFuncCode_request n p s hs hp hc], issued_after_request n p s hs hp hc⟩

/-- Witness of C2: identifier `foo` and page id `42` give exactly the URL
`/funcs?name=foo&pid=42`. -/
theorem getFuncCode_issues_one_witness :
    firstPre "foo" examplePage = some "LOADING..." ∧ examplePage.pid = some "42" ∧
    (examplePage.activeXObject = true ∨ examplePage.xmlHttpRequest = true) ∧
    (getFuncCode "foo" examplePage).2 = Completion.normal ∧
    issued (getFuncCode "foo" examplePage).1 = issued examplePage ++
      [{ method := "GET", url := "/funcs?name=foo&pid=42", async := true }] :=
  ⟨by decide, by decide, by decide,
   getFuncCode_issues_one "foo" "42" examplePage (by decide) (by decide) (by decide)⟩

/-! ## The handler `okFunc` and the delivery of notifications -/

theorem okFunc_unfinished (s : Page) (x : Handle) (hx : currentHandle s = some x)
    (hnd : ¬ (x.readyState = 4 ∧ x.status = 200)) : okFunc s = (s, Completion.normal) := by
  unfold okFunc
  rw [hx]
  by_cases h4 : x.readyState = 4
  · have h2 : ¬ x.status = 200 := fun h => hnd ⟨h4, h⟩
    simp [h4, h2]
  · simp [h4]

theorem okFunc_done (s : Page) (x : Handle) (c : String) (t : List String)
    (hx : currentHandle s = some x) (h4 : x.readyState = 4) (h2 : x.status = 200)
    (hr : getPres ("collapse_" ++ jsString s.funcName) s.regions = some (c :: t)) :
    okFunc s =
      ({ s with regions :=
          setFirstPre ("collapse_" ++ jsString s.funcName) x.responseText s.regions },
       Completion.normal) := by
  unfold okFunc
  rw [hx]
  simp only [h4, h2, if_true, hr]

theorem okFunc_frame (s : Page) :
    (okFunc s).1.handles = s.handles ∧ (okFunc s).1.xmlHttp = s.xmlHttp ∧
    (okFunc s).1.funcName = s.funcName ∧ (okFunc s).1.pid = s.pid ∧
    (okFunc s).1.activeXObject = s.activeXObject ∧
    (okFunc s).1.xmlHttpRequest = s.xmlHttpRequest := by
  unfold okFunc
  split
  · simp
  · split
    · split
      · split <;> simp
      · simp
    · simp

theorem okFunc_regions (s : Page) :
    (okFunc s).1.regions = s.regions ∨
    ∃ x, currentHandle s = some x ∧ x.readyState = 4 ∧ x.status = 200 ∧
      (okFunc s).1.regions =
        setFirstPre ("collapse_" ++ jsString s.funcName) x.responseText s.regions := by
  cases hx : currentHandle s with
  | none => left; simp [okFunc, hx]
  | some x =>
    by_cases hd : x.readyState = 4 ∧ x.status = 200
    · cases hr : getPres ("collapse_" ++ jsString s.funcName) s.regions with
      | none => left; simp [okFunc, hx, hd.1, hd.2, hr]
      | some l =>
        cases l with
        | nil => left; simp [okFunc, hx, hd.1, hd.2, hr]
        | cons c t =>
          right
          exact ⟨x, rfl, hd.1, hd.2, by rw [okFunc_done s x c t hx hd.1 hd.2 hr]⟩
    · left; rw [okFunc_unfinished s x hx hd]

theorem notify_frame (h rs st : Nat) (body : String) (s : Page) :
    (notify h rs st body s).1.xmlHttp = s.xmlHttp ∧
    (notify h rs st body s).1.funcName = s.funcName ∧
    (notify h rs st body s).1.pid = s.pid ∧
    (notify h rs st body s).1.activeXObject = s.activeXObject ∧
    (notify h rs st body s).1.xmlHttpRequest = s.xmlHttpRequest ∧
    (notify h rs st body s).1.handles.length = s.handles.length := by
  unfold notify
  split
  · simp
  · split
    · split
      · have hf := okFunc_frame (receive h rs st body s)
        simp only [hf.1, hf.2.1, hf.2.2.1, hf.2.2.2.1, hf.2.2.2.2.1, hf.2.2.2.2.2]
        simp [receive, modifyHandle_length]
      · simp [receive, modifyHandle_length]
    · simp

theorem notify_regions (h rs st : Nat) (body : String) (s : Page) :
    (notify h rs st body s).1.regions = s.regions ∨
    ∃ x, currentHandle (notify h rs st body s).1 = some x ∧
      x.readyState = 4 ∧ x.status = 200 ∧
      (notify h rs st body s).1.regions =
        setFirstPre ("collapse_" ++ jsString s.funcName) x.responseText s.regions := by
  unfold notify
  split
  · left; rfl
  · split
    · split
      · have hf := okFunc_frame (receive h rs st body s)
        rcases okFunc_regions (receive h rs st body s) with hr | ⟨x, hx, h4, h2, hr⟩
        · left; exact hr
        · right
          refine ⟨x, ?_, h4, h2, hr⟩
          rw [← hx]
          simp only [currentHandle, hf.1, hf.2.1]
      · left; rfl
    · left; rfl

theorem getElem?_append_length (hs : List Handle) (x : Handle) :
    (hs ++ [x])[hs.length]? = some x := by
  simp

theorem notify_after_request (n p B : String) (s : Page)
    (hs : firstPre n s = some "LOADING...") (hp : s.pid = some p)
    (hc : s.activeXObject = true ∨ s.xmlHttpRequest = true) :
    (notify s.handles.length 4 200 B (getFuncCode n s).1).2 = Completion.normal ∧
    (notify s.handles.length 4 200 B (getFuncCode n s).1).1.regions =
      setFirstPre ("collapse_" ++ n) B s.regions := by
  obtain ⟨t, ht⟩ := (firstPre_eq_some n _ s).1 hs
  rw [getFuncCode_request n p s hs hp hc]
  simp only [notify, getElem?_append_length, xhrSend, xhrSetRequestHeader, xhrSetHandler,
    if_true, receive, modifyHandle_append_last]
  rw [okFunc_done _ _ "LOADING..." t
    (by simp only [currentHandle, getElem?_append_length]; rfl) rfl rfl
    (by simpa [jsString] using ht)]
  simp [jsString]

theorem firstPre_after_delivery (n p B : String) (s : Page)
    (hs : firstPre n s = some "LOADING...") (hp : s.pid = some p)
    (hc : s.activeXObject = true ∨ s.xmlHttpRequest = true) :
    firstPre n (notify s.handles.length 4 200 B (getFuncCode n s).1).1 = some B := by
  obtain ⟨t, ht⟩ := (firstPre_eq_some n _ s).1 hs
  rw [firstPre_eq_some]
  refine ⟨t, ?_⟩
  rw [(notify_after_request n p B s hs hp hc).2,
    getPres_setFirstPre_eq ("collapse_" ++ n) B s.regions _ ht]
  rfl

/-- C3: after `getFuncCode n` has issued its request (region of `n` showing
the placeholder, page id present, a transport constructor available), the
notification of that request with ready state 4, status 200 and body `B`
returns normally and makes the first `<pre>` of the region of `n` exactly
`B`; every element with another id keeps all its `<pre>` contents, the later
`<pre>` elements of the region of `n` keep theirs, and the page id is
untouched. -/
theorem okFunc_delivers_body (n p B : String) (s : Page)
    (hs : firstPre n s = some "LOADING...") (hp : s.pid = some p)
    (hc : s.activeXObject = true ∨ s.xmlHttpRequest = true) :
    (notify s.handles.length 4 200 B (getFuncCode n s).1).2 = Completion.normal ∧
    firstPre n (notify s.handles.length 4 200 B (getFuncCode n s).1).1 = some B ∧
    (∀ id, id ≠ "collapse_" ++ n →
      getPres id (notify s.handles.length 4 200 B (getFuncCode n s).1).1.regions =
        getPres id s.regions) ∧
    (getPres ("collapse_" ++ n)
        (notify s.handles.length 4 200 B (getFuncCode n s).1).1.regions).map List.tail =
      (getPres ("collapse_" ++ n) s.regions).map List.tail ∧
    (notify s.handles.length 4 200 B (getFuncCode n s).1).1.pid = s.pid := by
  obtain ⟨t, ht⟩ := (firstPre_eq_some n _ s).1 hs
  obtain ⟨hn, hr⟩ := notify_after_request n p B s hs hp hc
  have hget := getPres_setFirstPre_eq ("collapse_" ++ n) B s.regions _ ht
  refine ⟨hn, firstPre_after_delivery n p B s hs hp hc, ?_, ?_, ?_⟩
  · intro id hid
    rw [hr, getPres_setFirstPre_ne _ _ _ _ hid]
  · rw [hr, hget, ht]; rfl
  · rw [(notify_frame _ _ _ _ _).2.2.1, getFuncCode_request n p s hs hp hc, hp]

/-- Witness of C3 on the example page: the body `"func foo()"` arrives in
region `foo`, and region `bar` still shows its two `<pre>` contents. -/
theorem okFunc_delivers_body_witness :
    firstPre "foo" examplePage = some "LOADING..." ∧ examplePage.pid = some "42" ∧
    (examplePage.activeXObject = true ∨ examplePage.xmlHttpRequest = true) ∧
    firstPre "foo" (notify 0 4 200 "func foo()" (getFuncCode "foo" examplePage).1).1
      = some "func foo()" ∧
    getPres "collapse_bar" (notify 0 4 200 "func foo()" (getFuncCode "foo" examplePage).1).1.regions
      = some ["LOADING...", "x"] :=
  ⟨by decide, by decide, by decide,
   (okFunc_delivers_body "foo" "42" "func foo()" examplePage
      (by decide) (by decide) (by decide)).2.1,
   (okFunc_delivers_body "foo" "42" "func foo()" examplePage
      (by decide) (by decide) (by decide)).2.2.1 "collapse_bar" (by decide)⟩

/-! ## The other ways a call of `getFuncCode` can go -/

theorem setFirstPre_same (id c : String) (t : List String) (rs : List (String × List String))
    (h : getPres id rs = some (c :: t)) : setFirstPre id c rs = rs := by
  induction rs with
  | nil => rfl
  | cons kv rest ih =>
    obtain ⟨k, w⟩ := kv
    by_cases hk : k = id
    · simp only [getPres, if_pos hk, Option.some.injEq] at h
      simp only [setFirstPre, if_pos hk, h, List.tail_cons]
    · simp only [getPres, if_neg hk] at h
      simp only [setFirstPre, if_neg hk, ih h]

theorem mem_modifyHandle (h : Nat) (f : Handle → Handle) (hs : List Handle) (y : Handle)
    (hy : y ∈ modifyHandle h f hs) : y ∈ hs ∨ ∃ x ∈ hs, y = f x := by
  induction hs generalizing h with
  | nil => simp [modifyHandle] at hy
  | cons z zs ih =>
    cases h with
    | zero =>
      simp only [modifyHandle, List.mem_cons] at hy
      rcases hy with hy | hy
      · exact Or.inr ⟨z, List.mem_cons_self _ _, hy⟩
      · exact Or.inl (List.mem_cons_of_mem _ hy)
    | succ n =>
      simp only [modifyHandle, List.mem_cons] at hy
      rcases hy with hy | hy
      · exact Or.inl (hy ▸ List.mem_cons_self _ _)
      · rcases ih n hy with h1 | ⟨x, hx, hxy⟩
        · exact Or.inl (List.mem_cons_of_mem _ h1)
        · exact Or.inr ⟨x, List.mem_cons_of_mem _ hx, hxy⟩

theorem getFuncCode_guard_fail (n : String) (s : Page)
    (hg : firstPre n s ≠ some "LOADING...") : (getFuncCode n s).1 = s := by
  unfold getFuncCode
  unfold firstPre at hg
  split
  · rfl
  · rfl
  · next c t heq =>
    rw [heq] at hg
    have hc : c ≠ "LOADING..." := fun e => hg (by rw [e])
    simp [hc]

theorem getFuncCode_no_pid (n : String) (s : Page)
    (hs : firstPre n s = some "LOADING...") (hp : s.pid = none)
    (hc : s.activeXObject = true ∨ s.xmlHttpRequest = true) :
    getFuncCode n s =
      ({ s with handles := s.handles ++ [freshHandle], xmlHttp := some s.handles.length,
                funcName := some n }, Completion.typeError) := by
  obtain ⟨t, ht⟩ := (firstPre_eq_some n _ s).1 hs
  unfold getFuncCode
  rw [ht]
  simp only [createXMLHttpRequest_ok s hc, ne_eq, not_true_eq_false, if_false,
    Option.isNone_some, hp]
  simp only [Bool.false_eq_true, if_false]

theorem getFuncCode_no_transport (n : String) (s : Page)
    (hs : firstPre n s = some "LOADING...")
    (ha : s.activeXObject = false) (hx : s.xmlHttpRequest = false) (hv : s.xmlHttp = none) :
    getFuncCode n s =
      ({ s with regions := setFirstPre ("collapse_" ++ n) "Fail to create XMLHTTP." s.regions,
                funcName := some n }, Completion.typeError) := by
  obtain ⟨t, ht⟩ := (firstPre_eq_some n _ s).1 hs
  unfold getFuncCode
  rw [ht]
  simp [createXMLHttpRequest, ha, hx, hv]

/-! ## The pairing invariant -/

theorem Paired_getFuncCode (n : String) (s : Page) (hI : Paired s) :
    Paired (getFuncCode n s).1 := by
  by_cases hg : firstPre n s = some "LOADING..."
  · obtain ⟨t, ht⟩ := (firstPre_eq_some n _ s).1 hg
    by_cases hc : s.activeXObject = true ∨ s.xmlHttpRequest = true
    · have hold : ∀ x ∈ s.handles, x.sent = true → x.onreadystatechange = true := by
        rcases hI with ⟨h0, _⟩ | ⟨_, h1, _⟩
        · intro x hx; rw [h0] at hx; simp at hx
        · exact h1
      cases hp : s.pid with
      | none =>
        rw [getFuncCode_no_pid n s hg hp hc]
        refine Or.inr ⟨hc, ?_, s.handles.length, freshHandle, n, "LOADING...", t, rfl, ?_, rfl,
          ht, ?_⟩
        · intro x hx
          simp only [List.mem_append, List.mem_singleton] at hx
          rcases hx with hx | hx
          · exact hold x hx
          · rw [hx]; simp [freshHandle]
        · simp
        · intro h4; simp [freshHandle] at h4
      | some p =>
        rw [getFuncCode_request n p s hg hp hc]
        refine Or.inr ⟨hc, ?_, s.handles.length, _, n, "LOADING...", t, rfl,
          getElem?_append_length _ _, rfl, ht, ?_⟩
        · intro x hx
          simp only [List.mem_append, List.mem_singleton] at hx
          rcases hx with hx | hx
          · exact hold x hx
          · rw [hx]; simp [xhrSend, xhrSetRequestHeader, xhrSetHandler]
        · intro h4; simp [xhrSend, xhrSetRequestHeader, xhrSetHandler, xhrOpen] at h4
    · rcases hI with ⟨h0, h1⟩ | ⟨hc2, _⟩
      · have ha : s.activeXObject = false := by
          cases h : s.activeXObject with
          | false => rfl
          | true => exact absurd (Or.inl h) hc
        have hx : s.xmlHttpRequest = false := by
          cases h : s.xmlHttpRequest with
          | false => rfl
          | true => exact absurd (Or.inr h) hc
        rw [getFuncCode_no_transport n s hg ha hx h1]
        exact Or.inl ⟨h0, h1⟩
      · exact absurd hc2 hc
  · rw [getFuncCode_guard_fail n s hg]
    exact hI
theorem okFunc_eq_of_done (s : Page) (x : Handle) (m c : String) (t : List String)
    (hx : currentHandle s = some x) (hm : s.funcName = some m)
    (h4 : x.readyState = 4) (h2 : x.status = 200)
    (hr : getPres ("collapse_" ++ m) s.regions = some (c :: t)) :
    okFunc s =
      ({ s with regions := setFirstPre ("collapse_" ++ m) x.responseText s.regions },
       Completion.normal) := by
  have hj : jsString s.funcName = m := by rw [hm]; rfl
  have := okFunc_done s x c t hx h4 h2 (by rw [hj]; exact hr)
  rw [hj] at this
  exact this

theorem notify_of_Paired (h rs st : Nat) (body : String) (s : Page) (hI : Paired s) :
    Paired (notify h rs st body s).1 ∧ (notify h rs st body s).2 = Completion.normal ∧
    (¬ (rs = 4 ∧ st = 200) → (notify h rs st body s).1.regions = s.regions) := by
  unfold notify
  cases hx : s.handles[h]? with
  | none => exact ⟨hI, rfl, fun _ => rfl⟩
  | some x =>
    by_cases hsent : x.sent = true
    swap
    · dsimp only
      rw [if_neg hsent]
      exact ⟨hI, rfl, fun _ => rfl⟩
    rcases hI with ⟨h0, _⟩ | ⟨hc, hreg, k, xk, m, c, t, hk, hxk, hm, hr, hprop⟩
    · rw [h0] at hx; simp at hx
    have hh : x.onreadystatechange = true := hreg x (List.getElem?_mem hx) hsent
    dsimp only
    rw [if_pos hsent, if_pos hh]
    have hreg1 : ∀ y ∈ (receive h rs st body s).handles,
        y.sent = true → y.onreadystatechange = true := by
      intro y hy
      rcases mem_modifyHandle _ _ _ _ hy with h1 | ⟨z, hz, hzy⟩
      · exact hreg y h1
      · rw [hzy]; exact hreg z hz
    by_cases hkh : k = h
    · subst hkh
      have hxx : xk = x := by rw [hx] at hxk; exact (Option.some.inj hxk).symm
      subst hxx
      have hcur : currentHandle (receive k rs st body s) =
          some { xk with readyState := rs, status := st, responseText := body } := by
        simp only [currentHandle, receive, hk]
        exact modifyHandle_get_eq _ _ _ _ hx
      by_cases hd : rs = 4 ∧ st = 200
      · rw [okFunc_eq_of_done _ _ m c t hcur hm hd.1 hd.2 hr]
        refine ⟨Or.inr ⟨hc, hreg1, k,
          { xk with readyState := rs, status := st, responseText := body }, m, body, t, hk, ?_,
          hm, ?_, fun _ _ => rfl⟩, rfl, fun hnd => absurd hd hnd⟩
        · exact modifyHandle_get_eq _ _ _ _ hx
        · exact getPres_setFirstPre_eq _ _ _ _ hr
      · rw [okFunc_unfinished _ _ hcur hd]
        refine ⟨Or.inr ⟨hc, hreg1, k,
          { xk with readyState := rs, status := st, responseText := body }, m, c, t, hk, ?_,
          hm, hr, ?_⟩, rfl, fun _ => rfl⟩
        · exact modifyHandle_get_eq _ _ _ _ hx
        · intro h4 h2
          exact absurd ⟨h4, h2⟩ hd
    · have hget : (receive h rs st body s).handles[k]? = some xk := by
        simp only [receive]
        rw [modifyHandle_get_ne _ _ _ _ hkh]
        exact hxk
      have hcur : currentHandle (receive h rs st body s) = some xk := by
        simp only [currentHandle, receive, hk]
        exact hget
      by_cases hd : xk.readyState = 4 ∧ xk.status = 200
      · rw [okFunc_eq_of_done _ _ m c t hcur hm hd.1 hd.2 hr]
        have hsame : setFirstPre ("collapse_" ++ m) xk.responseText (receive h rs st body s).regions
            = s.regions := by
          rw [← hprop hd.1 hd.2]
          exact setFirstPre_same _ _ t _ hr
        refine ⟨Or.inr ⟨hc, hreg1, k, xk, m, c, t, hk, hget, hm, ?_, hprop⟩, rfl, fun _ => hsame⟩
        show getPres _ (setFirstPre ("collapse_" ++ m) xk.responseText
          (receive h rs st body s).regions) = _
        rw [hsame]; exact hr
      · rw [okFunc_unfinished _ _ hcur hd]
        exact ⟨Or.inr ⟨hc, hreg1, k, xk, m, c, t, hk, hget, hm, hr, hprop⟩, rfl, fun _ => rfl⟩

theorem Paired_run (t : List Event) (s : Page) (hI : Paired s) : Paired (run t s) := by
  induction t generalizing s with
  | nil => exact hI
  | cons e es ih =>
    apply ih
    cases e with
    | call n => exact Paired_getFuncCode n s hI
    | ready h rs st body => exact (notify_of_Paired h rs st body s hI).1

/-- C4: a notification that finds the transport object not both in ready
state 4 and at status 200 changes nothing and raises no error.  First part:
whenever the transport object `okFunc` inspects (the one in `xmlHttp`) is in
an earlier ready state, or in state 4 with a status other than 200, `okFunc`
returns normally with the whole state unchanged.  Second part: in every state
the page reaches from its load (no transport object yet, `xmlHttp`
undefined) through calls and notifications, a notification that puts any
transport object into such a state returns normally and leaves every region
and the page id as they were; in particular a region that showed
`"LOADING..."` before still shows it afterwards. -/
theorem okFunc_ignores_unfinished :
    (∀ (s : Page) (x : Handle), currentHandle s = some x →
        ¬ (x.readyState = 4 ∧ x.status = 200) → okFunc s = (s, Completion.normal)) ∧
    (∀ (s0 : Page) (t : List Event) (h rs st : Nat) (body : String),
        s0.handles = [] → s0.xmlHttp = none → ¬ (rs = 4 ∧ st = 200) →
        (notify h rs st body (run t s0)).2 = Completion.normal ∧
        (notify h rs st body (run t s0)).1.regions = (run t s0).regions ∧
        (notify h rs st body (run t s0)).1.pid = (run t s0).pid ∧
        ∀ n, firstPre n (run t s0) = some "LOADING..." →
          firstPre n (notify h rs st body (run t s0)).1 = some "LOADING...") := by
  refine ⟨okFunc_unfinished, ?_⟩
  intro s0 t h rs st body h0 h1 hnd
  have hI : Paired (run t s0) := Paired_run t s0 (Or.inl ⟨h0, h1⟩)
  obtain ⟨_, hn, hr⟩ := notify_of_Paired h rs st body (run t s0) hI
  refine ⟨hn, hr hnd, (notify_frame h rs st body (run t s0)).2.2.1, ?_⟩
  intro n hs
  unfold firstPre at hs ⊢
  rw [hr hnd]
  exact hs

/-- Witness of C4 on the example page: after `foo` and then `bar` were
requested, a notification of the first request with ready state 4 and status
404, and one with ready state 3 and status 200, leave region `foo` at the
placeholder; and `okFunc` run while `xmlHttp` is still in state 1 returns the
state it was given. -/
theorem okFunc_ignores_unfinished_witness :
    firstPre "foo" (notify 0 4 404 "not found" (run [.call "foo", .call "bar"] examplePage)).1
      = some "LOADING..." ∧
    (notify 0 3 200 "func" (run [.call "foo", .call "bar"] examplePage)).2
      = Completion.normal ∧
    okFunc (getFuncCode "foo" examplePage).1
      = ((getFuncCode "foo" examplePage).1, Completion.normal) :=
  ⟨(okFunc_ignores_unfinished.2 examplePage [.call "foo", .call "bar"] 0 4 404 "not found"
      (by decide) (by decide) (by decide)).2.2.2 "foo" (by decide),
   (okFunc_ignores_unfinished.2 examplePage [.call "foo", .call "bar"] 0 3 200 "func"
      (by decide) (by decide) (by decide)).1,
   okFunc_ignores_unfinished.1 (getFuncCode "foo" examplePage).1
      (xhrSend (xhrSetRequestHeader "Content-Type" "application/x-www-form-urlencoded"
        (xhrSetHandler (xhrOpen "GET" "/funcs?name=foo&pid=42" true freshHandle))))
      (by decide) (by decide)⟩

/-! ## Requests over a whole exchange -/

theorem issued_modifyHandle (h : Nat) (f : Handle → Handle) (hs : List Handle)
    (hf : ∀ x, (f x).sent = x.sent ∧ (f x).method = x.method ∧ (f x).url = x.url ∧
      (f x).async = x.async) :
    ((modifyHandle h f hs).filter (fun x => x.sent)).map
        (fun x => ({ method := x.method, url := x.url, async := x.async } : Request)) =
      (hs.filter (fun x => x.sent)).map
        (fun x => ({ method := x.method, url := x.url, async := x.async } : Request)) := by
  induction hs generalizing h with
  | nil => simp [modifyHandle]
  | cons y ys ih =>
    cases h with
    | zero =>
      obtain ⟨h1, h2, h3, h4⟩ := hf y
      simp only [modifyHandle, List.filter_cons, h1]
      split <;> simp [h2, h3, h4]
    | succ n =>
      simp only [modifyHandle, List.filter_cons]
      split <;> simp [ih n]

theorem issued_notify (h rs st : Nat) (body : String) (s : Page) :
    issued (notify h rs st body s).1 = issued s := by
  have hrec : issued (receive h rs st body s) = issued s := by
    unfold issued receive
    exact issued_modifyHandle _ _ _ (fun x => ⟨rfl, rfl, rfl, rfl⟩)
  unfold notify
  split
  · rfl
  · split
    · split
      · unfold issued
        rw [(okFunc_frame _).1]
        exact hrec
      · exact hrec
    · rfl

/-- C5, as stated, fails when the response body is itself the placeholder:
on the example page the exchange call, completion with status 200 and body
`"LOADING..."`, call again, issues two requests, not one. -/
theorem refetch_when_body_is_sentinel :
    firstPre "foo" examplePage = some "LOADING..." ∧
    issued examplePage = [] ∧
    issued (run [.call "foo", .ready 0 4 200 "LOADING...", .call "foo"] examplePage) =
      [{ method := "GET", url := "/funcs?name=foo&pid=42", async := true },
       { method := "GET", url := "/funcs?name=foo&pid=42", async := true }] := by
  decide

theorem okFuncRead_id (s : Page) : okFuncRead id s = okFunc s := rfl

theorem notifyRead_id (h rs st : Nat) (body : String) (s : Page) :
    notifyRead id h rs st body s = notify h rs st body s := rfl

theorem notifyRead_after_request (rb : String → String) (n p B : String) (s : Page)
    (hs : firstPre n s = some "LOADING...") (hp : s.pid = some p)
    (hc : s.activeXObject = true ∨ s.xmlHttpRequest = true) :
    (notifyRead rb s.handles.length 4 200 B (getFuncCode n s).1).2 = Completion.normal ∧
    (notifyRead rb s.handles.length 4 200 B (getFuncCode n s).1).1.regions =
      setFirstPre ("collapse_" ++ n) (rb B) s.regions ∧
    issued (notifyRead rb s.handles.length 4 200 B (getFuncCode n s).1).1 =
      issued (getFuncCode n s).1 ∧
    (notifyRead rb s.handles.length 4 200 B (getFuncCode n s).1).1.pid = s.pid ∧
    (notifyRead rb s.handles.length 4 200 B (getFuncCode n s).1).1.activeXObject =
      s.activeXObject ∧
    (notifyRead rb s.handles.length 4 200 B (getFuncCode n s).1).1.xmlHttpRequest =
      s.xmlHttpRequest := by
  obtain ⟨t, ht⟩ := (firstPre_eq_some n _ s).1 hs
  have hiss : issued (receive s.handles.length 4 200 B (getFuncCode n s).1) =
      issued (getFuncCode n s).1 := by
    unfold issued receive
    exact issued_modifyHandle _ _ _ (fun x => ⟨rfl, rfl, rfl, rfl⟩)
  have hn : notifyRead rb s.handles.length 4 200 B (getFuncCode n s).1 =
      ({ (receive s.handles.length 4 200 B (getFuncCode n s).1) with
          regions := setFirstPre ("collapse_" ++ n) (rb B) s.regions },
       Completion.normal) := by
    rw [getFuncCode_request n p s hs hp hc]
    simp only [notifyRead, getElem?_append_length, xhrSend, xhrSetRequestHeader, xhrSetHandler,
      if_true, receive, modifyHandle_append_last]
    simp [okFuncRead, currentHandle, jsString, ht]
  rw [hn]
  refine ⟨rfl, rfl, hiss, ?_, ?_, ?_⟩
  · show (getFuncCode n s).1.pid = s.pid
    rw [getFuncCode_request n p s hs hp hc]
  · show (getFuncCode n s).1.activeXObject = s.activeXObject
    rw [getFuncCode_request n p s hs hp hc]
  · show (getFuncCode n s).1.xmlHttpRequest = s.xmlHttpRequest
    rw [getFuncCode_request n p s hs hp hc]

theorem firstPre_after_read (rb : String → String) (n p B : String) (s : Page)
    (hs : firstPre n s = some "LOADING...") (hp : s.pid = some p)
    (hc : s.activeXObject = true ∨ s.xmlHttpRequest = true) :
    firstPre n (notifyRead rb s.handles.length 4 200 B (getFuncCode n s).1).1 = some (rb B) := by
  obtain ⟨t, ht⟩ := (firstPre_eq_some n _ s).1 hs
  rw [firstPre_eq_some]
  refine ⟨t, ?_⟩
  rw [(notifyRead_after_request rb n p B s hs hp hc).2.1,
    getPres_setFirstPre_eq ("collapse_" ++ n) (rb B) s.regions _ ht]
  rfl

/-- C5 amended: let `rb` be the round trip the browser makes from a string
assigned to `innerHTML` to the string read back from it.  For every
identifier `n`, page id `p` and response body `B` that reads back as anything
other than `"LOADING..."`: when `getFuncCode n` is called on a region showing
the placeholder, its request completes with ready state 4, status 200 and
body `B`, and `getFuncCode n` is called again, exactly one request was issued
in total, the region reads back `rb B`, and the second call returned normally
without changing the state. -/
theorem second_call_is_noop (rb : String → String) (n p B : String) (s : Page)
    (hs : firstPre n s = some "LOADING...") (hp : s.pid = some p)
    (hc : s.activeXObject = true ∨ s.xmlHttpRequest = true) (hB : rb B ≠ "LOADING...") :
    issued (getFuncCode n (notifyRead rb s.handles.length 4 200 B (getFuncCode n s).1).1).1 =
      issued s ++
        [{ method := "GET", url := "/funcs?name=" ++ n ++ "&pid=" ++ p, async := true }] ∧
    firstPre n (notifyRead rb s.handles.length 4 200 B (getFuncCode n s).1).1 = some (rb B) ∧
    getFuncCode n (notifyRead rb s.handles.length 4 200 B (getFuncCode n s).1).1 =
      ((notifyRead rb s.handles.length 4 200 B (getFuncCode n s).1).1, Completion.normal) := by
  have h2 := firstPre_after_read rb n p B s hs hp hc
  have hnoop := getFuncCode_skip n (rb B) _ h2 hB
  refine ⟨?_, h2, hnoop⟩
  rw [hnoop, (notifyRead_after_request rb n p B s hs hp hc).2.2.1]
  exact issued_after_request n p s hs hp hc

/-- Witness of C5 amended on the example page, with a round trip that decodes
a character reference: body `"func foo()"` reads back as itself, and one
request is issued in total. -/
theorem second_call_is_noop_witness :
    firstPre "foo" examplePage = some "LOADING..." ∧ examplePage.pid = some "42" ∧
    (examplePage.activeXObject = true ∨ examplePage.xmlHttpRequest = true) ∧
    decodeExample "func foo()" ≠ "LOADING..." ∧
    issued (getFuncCode "foo"
        (notifyRead decodeExample 0 4 200 "func foo()" (getFuncCode "foo" examplePage).1).1).1 =
      [{ method := "GET", url := "/funcs?name=foo&pid=42", async := true }] ∧
    firstPre "foo"
        (notifyRead decodeExample 0 4 200 "func foo()" (getFuncCode "foo" examplePage).1).1
      = some "func foo()" :=
  ⟨by decide, by decide, by decide, by decide,
   (second_call_is_noop decodeExample "foo" "42" "func foo()" examplePage
      (by decide) (by decide) (by decide) (by decide)).1,
   (second_call_is_noop decodeExample "foo" "42" "func foo()" examplePage
      (by decide) (by decide) (by decide) (by decide)).2.1⟩

/-- The side condition is on what is read back, not on the body: when the
body reads back as `"LOADING..."` the second call gets past the guard and a
second request for the same URL is issued. -/
theorem refetch_when_read_back_is_sentinel (rb : String → String) (n p B : String) (s : Page)
    (hs : firstPre n s = some "LOADING...") (hp : s.pid = some p)
    (hc : s.activeXObject = true ∨ s.xmlHttpRequest = true) (hB : rb B = "LOADING...") :
    issued (getFuncCode n (notifyRead rb s.handles.length 4 200 B (getFuncCode n s).1).1).1 =
      issued s ++
        [{ method := "GET", url := "/funcs?name=" ++ n ++ "&pid=" ++ p, async := true },
         { method := "GET", url := "/funcs?name=" ++ n ++ "&pid=" ++ p, async := true }] := by
  obtain ⟨_, _, h3, h4, h5, h6⟩ := notifyRead_after_request rb n p B s hs hp hc
  have h2 : firstPre n (notifyRead rb s.handles.length 4 200 B (getFuncCode n s).1).1 =
      some "LOADING..." := by
    rw [firstPre_after_read rb n p B s hs hp hc, hB]
  rw [issued_after_request n p _ h2 (by rw [h4]; exact hp) (by rw [h5, h6]; exact hc), h3,
    issued_after_request n p s hs hp hc]
  simp

/-- The body `"LOADING&#46;.."` is not the placeholder, but with a round trip
that decodes the character reference it reads back as the placeholder, and
the exchange on the example page issues two requests. -/
theorem refetch_when_reference_decodes :
    "LOADING&#46;.." ≠ "LOADING..." ∧
    issued (getFuncCode "foo"
        (notifyRead decodeExample 0 4 200 "LOADING&#46;.." (getFuncCode "foo" examplePage).1).1).1 =
      [{ method := "GET", url := "/funcs?name=foo&pid=42", async := true },
       { method := "GET", url := "/funcs?name=foo&pid=42", async := true }] := by
  decide

/-! ## No transport constructor -/

/-- C6 on the example page in a browser that has neither `ActiveXObject` nor
`XMLHttpRequest`: `getFuncCode "foo"` writes `"Fail to create XMLHTTP."`
into region `foo` and leaves region `bar` alone, but it does not return: it
goes on to line 299 and `xmlHttp.open` throws a `TypeError`, `xmlHttp` being
undefined.  No request is issued. -/
theorem no_transport_throws :
    bareBrowserPage.activeXObject = false ∧ bareBrowserPage.xmlHttpRequest = false ∧
    firstPre "foo" bareBrowserPage = some "LOADING..." ∧
    firstPre "foo" (getFuncCode "foo" bareBrowserPage).1 = some "Fail to create XMLHTTP." ∧
    getPres "collapse_bar" (getFuncCode "foo" bareBrowserPage).1.regions =
      getPres "collapse_bar" bareBrowserPage.regions ∧
    issued (getFuncCode "foo" bareBrowserPage).1 = [] ∧
    (getFuncCode "foo" bareBrowserPage).2 = Completion.typeError := by
  decide

/-- Every call that finds the placeholder in a browser without a transport
constructor ends that way, as long as `xmlHttp` is still undefined: the text
is written, `funcName` is set, and a `TypeError` is thrown. -/
theorem no_transport_always_throws (n : String) (s : Page)
    (hs : firstPre n s = some "LOADING...")
    (ha : s.activeXObject = false) (hx : s.xmlHttpRequest = false) (hv : s.xmlHttp = none) :
    (getFuncCode n s).2 = Completion.typeError ∧
    firstPre n (getFuncCode n s).1 = some "Fail to create XMLHTTP." ∧
    (∀ id, id ≠ "collapse_" ++ n →
      getPres id (getFuncCode n s).1.regions = getPres id s.regions) := by
  obtain ⟨t, ht⟩ := (firstPre_eq_some n _ s).1 hs
  rw [getFuncCode_no_transport n s hs ha hx hv]
  refine ⟨rfl, ?_, ?_⟩
  · rw [firstPre_eq_some]
    exact ⟨t, by rw [getPres_setFirstPre_eq _ _ _ _ ht]; rfl⟩
  · intro id hid
    exact getPres_setFirstPre_ne _ _ _ _ hid

/-! ## Two calls in a row, and the variables along a trace -/

theorem getElem?_append_old (hs : List Handle) (y x : Handle) (j : Nat)
    (hj : hs[j]? = some x) : (hs ++ [y])[j]? = some x := by
  have hlt : j < hs.length := by
    by_contra hge
    rw [List.getElem?_eq_none (Nat.le_of_not_lt hge)] at hj
    exact absurd hj (by simp)
  rw [List.getElem?_append_left hlt]
  exact hj

theorem getFuncCode_pass (n : String) (s : Page)
    (hs : firstPre n s = some "LOADING...")
    (hc : s.activeXObject = true ∨ s.xmlHttpRequest = true) :
    (getFuncCode n s).1.funcName = some n ∧
    (getFuncCode n s).1.xmlHttp = some s.handles.length ∧
    (getFuncCode n s).1.regions = s.regions ∧
    (getFuncCode n s).1.pid = s.pid ∧
    (getFuncCode n s).1.activeXObject = s.activeXObject ∧
    (getFuncCode n s).1.xmlHttpRequest = s.xmlHttpRequest ∧
    (∃ x, (getFuncCode n s).1.handles[s.handles.length]? = some x ∧ x.readyState ≠ 4 ∧
      ∀ p, s.pid = some p →
        x.sent = true ∧ x.onreadystatechange = true ∧
        x.url = "/funcs?name=" ++ n ++ "&pid=" ++ p) ∧
    (getFuncCode n s).1.handles.length = s.handles.length + 1 ∧
    (∀ (j : Nat) (x : Handle), s.handles[j]? = some x →
      (getFuncCode n s).1.handles[j]? = some x) := by
  cases hp : s.pid with
  | none =>
    rw [getFuncCode_no_pid n s hs hp hc]
    refine ⟨rfl, rfl, rfl, hp, rfl, rfl, ⟨freshHandle, getElem?_append_length _ _, ?_, ?_⟩,
      by simp, ?_⟩
    · simp [freshHandle]
    · intro p h; simp at h
    · intro j x hj; exact getElem?_append_old _ _ _ _ hj
  | some p =>
    rw [getFuncCode_request n p s hs hp hc]
    refine ⟨rfl, rfl, rfl, hp, rfl, rfl, ⟨_, getElem?_append_length _ _, ?_, ?_⟩,
      by simp, ?_⟩
    · simp [xhrSend, xhrSetRequestHeader, xhrSetHandler, xhrOpen]
    · intro q h
      have hq : p = q := by simpa using h
      subst hq
      simp [xhrSend, xhrSetRequestHeader, xhrSetHandler, xhrOpen]
    · intro j x hj; exact getElem?_append_old _ _ _ _ hj

theorem notify_handle (h rs st : Nat) (body : String) (s : Page) (k : Nat) (x : Handle)
    (hx : s.handles[k]? = some x) :
    ∃ y, (notify h rs st body s).1.handles[k]? = some y ∧ y.sent = x.sent ∧ y.url = x.url ∧
      y.onreadystatechange = x.onreadystatechange ∧
      (y = x ∨ (k = h ∧ y.readyState = rs ∧ y.status = st ∧ y.responseText = body)) := by
  have hrec : ∃ y, (receive h rs st body s).handles[k]? = some y ∧ y.sent = x.sent ∧
      y.url = x.url ∧ y.onreadystatechange = x.onreadystatechange ∧
      (y = x ∨ (k = h ∧ y.readyState = rs ∧ y.status = st ∧ y.responseText = body)) := by
    by_cases hkh : k = h
    · subst hkh
      exact ⟨_, modifyHandle_get_eq _ _ _ _ hx, rfl, rfl, rfl, Or.inr ⟨rfl, rfl, rfl, rfl⟩⟩
    · refine ⟨x, ?_, rfl, rfl, rfl, Or.inl rfl⟩
      simp only [receive]
      rw [modifyHandle_get_ne _ _ _ _ hkh]
      exact hx
  unfold notify
  split
  · exact ⟨x, hx, rfl, rfl, rfl, Or.inl rfl⟩
  · split
    · split
      · rw [(okFunc_frame _).1]
        exact hrec
      · exact hrec
    · exact ⟨x, hx, rfl, rfl, rfl, Or.inl rfl⟩

theorem Tracks_step (e : Event) (s : Page) (acc : Option (String × Nat))
    (hc : s.activeXObject = true ∨ s.xmlHttpRequest = true) (hT : Tracks s acc) :
    ((step e s).activeXObject = true ∨ (step e s).xmlHttpRequest = true) ∧
    Tracks (step e s)
      (match e with
       | .call n => if passesGuard n s then some (n, s.handles.length) else acc
       | .ready _ _ _ _ => acc) := by
  cases e with
  | call n =>
    by_cases hg : firstPre n s = some "LOADING..."
    · obtain ⟨h1, h2, _, h4, h5, h6, ⟨x, hx, _, hurl⟩, _, _⟩ := getFuncCode_pass n s hg hc
      have hpg : passesGuard n s = true := by simp [passesGuard, hg]
      simp only [step, hpg, if_true]
      refine ⟨by rw [h5, h6]; exact hc, h1, h2, x, hx, ?_⟩
      intro p hp
      rw [h4] at hp
      exact ⟨(hurl p hp).1, (hurl p hp).2.2⟩
    · have hpg : passesGuard n s = false := by simp [passesGuard, hg]
      simp only [step, hpg, getFuncCode_guard_fail n s hg]
      exact ⟨hc, hT⟩
  | ready h rs st body =>
    obtain ⟨f1, f2, f3, f4, f5, _⟩ := notify_frame h rs st body s
    simp only [step]
    refine ⟨by rw [f4, f5]; exact hc, ?_⟩
    cases acc with
    | none =>
      obtain ⟨h0, h1⟩ := hT
      have : notify h rs st body s = (s, Completion.normal) := by
        simp [notify, h0]
      rw [this]
      exact ⟨h0, h1⟩
    | some mk =>
      obtain ⟨m, k⟩ := mk
      obtain ⟨t1, t2, x, hx, hurl⟩ := hT
      obtain ⟨y, hy, hs1, hs2, _, _⟩ := notify_handle h rs st body s k x hx
      refine ⟨by rw [f2]; exact t1, by rw [f1]; exact t2, y, hy, ?_⟩
      intro p hp
      rw [f3] at hp
      rw [hs1, hs2]
      exact hurl p hp

theorem Tracks_run (t : List Event) (s : Page) (acc : Option (String × Nat))
    (hc : s.activeXObject = true ∨ s.xmlHttpRequest = true) (hT : Tracks s acc) :
    Tracks (run t s) (lastPassed t s acc) := by
  induction t generalizing s acc with
  | nil => exact hT
  | cons e es ih =>
    obtain ⟨hc2, hT2⟩ := Tracks_step e s acc hc hT
    exact ih (step e s) _ hc2 hT2

theorem notify_writes_tracked (h rs st : Nat) (body : String) (s : Page)
    (acc : Option (String × Nat)) (hT : Tracks s acc) :
    (notify h rs st body s).1.regions = s.regions ∨
    ∃ m k x, acc = some (m, k) ∧ (notify h rs st body s).1.handles[k]? = some x ∧
      (notify h rs st body s).1.regions =
        setFirstPre ("collapse_" ++ m) x.responseText s.regions := by
  rcases notify_regions h rs st body s with hr | ⟨x, hx, _, _, hr⟩
  · exact Or.inl hr
  · have f1 := (notify_frame h rs st body s).1
    cases acc with
    | none =>
      obtain ⟨_, h1⟩ := hT
      simp [currentHandle, f1, h1] at hx
    | some mk =>
      obtain ⟨m, k⟩ := mk
      obtain ⟨t1, t2, _⟩ := hT
      right
      refine ⟨m, k, x, rfl, ?_, ?_⟩
      · simpa [currentHandle, f1, t2] using hx
      · rw [hr, t1]; rfl

theorem notify_keeps (h rs st : Nat) (body : String) (s : Page) (k : Nat) (x : Handle)
    (hk : s.xmlHttp = some k) (hx : s.handles[k]? = some x)
    (hnd : ¬ (x.readyState = 4 ∧ x.status = 200))
    (hh : k ≠ h ∨ ¬ (rs = 4 ∧ st = 200)) :
    (notify h rs st body s).2 = Completion.normal ∧
    (notify h rs st body s).1.regions = s.regions ∧
    ∃ y, (notify h rs st body s).1.handles[k]? = some y ∧
      ¬ (y.readyState = 4 ∧ y.status = 200) := by
  obtain ⟨y, hy, _, _, _, hyx⟩ := notify_handle h rs st body s k x hx
  have hyd : ¬ (y.readyState = 4 ∧ y.status = 200) := by
    rcases hyx with e | ⟨e, r1, r2, _⟩
    · rw [e]; exact hnd
    · rcases hh with hne | hne
      · exact absurd e hne
      · rw [r1, r2]; exact hne
  have hcur : currentHandle (notify h rs st body s).1 = some y := by
    simp only [currentHandle, (notify_frame h rs st body s).1, hk]
    exact hy
  refine ⟨?_, ?_, y, hy, hyd⟩
  · unfold notify
    split
    · rfl
    · split
      · split
        · next z hz hsent hhand =>
          have hn : notify h rs st body s = okFunc (receive h rs st body s) := by
            unfold notify; rw [hz]; dsimp only; rw [if_pos hsent, if_pos hhand]
          have hc2 : currentHandle (receive h rs st body s) = some y := by
            rw [hn] at hcur
            simpa [currentHandle, (okFunc_frame _).1, (okFunc_frame _).2.1] using hcur
          rw [okFunc_unfinished _ _ hc2 hyd]
        · rfl
      · rfl
  · rcases notify_regions h rs st body s with hr | ⟨z, hz, h4, h2, _⟩
    · exact hr
    · rw [hcur] at hz
      have : y = z := Option.some.inj hz
      subst this
      exact absurd ⟨h4, h2⟩ hyd

theorem notify_current_done (B : String) (s : Page) (k : Nat) (x : Handle) (m c : String)
    (t : List String) (hk : s.xmlHttp = some k) (hx : s.handles[k]? = some x)
    (hsent : x.sent = true) (hhand : x.onreadystatechange = true) (hm : s.funcName = some m)
    (hr : getPres ("collapse_" ++ m) s.regions = some (c :: t)) :
    (notify k 4 200 B s).2 = Completion.normal ∧
    (notify k 4 200 B s).1.regions = setFirstPre ("collapse_" ++ m) B s.regions := by
  have hn : notify k 4 200 B s = okFunc (receive k 4 200 B s) := by
    unfold notify; rw [hx]; dsimp only; rw [if_pos hsent, if_pos hhand]
  have hcur : currentHandle (receive k 4 200 B s) =
      some { x with readyState := 4, status := 200, responseText := B } := by
    simp only [currentHandle, receive, hk]
    exact modifyHandle_get_eq _ _ _ _ hx
  rw [hn, okFunc_eq_of_done _ _ m c t hcur hm rfl rfl hr]
  exact ⟨rfl, rfl⟩

theorem run_append (t1 t2 : List Event) (s : Page) :
    run (t1 ++ t2) s = run t2 (run t1 s) := by
  induction t1 generalizing s with
  | nil => rfl
  | cons e es ih => exact ih (step e s)

theorem run_progress (mid : List Event) (s : Page) (k : Nat) (x : Handle)
    (hk : s.xmlHttp = some k) (hx : s.handles[k]? = some x)
    (hnd : ¬ (x.readyState = 4 ∧ x.status = 200))
    (hmid : ∀ e ∈ mid, e.isProgress = true) :
    (run mid s).regions = s.regions ∧ (run mid s).pid = s.pid ∧
    (run mid s).activeXObject = s.activeXObject ∧
    (run mid s).xmlHttpRequest = s.xmlHttpRequest := by
  induction mid generalizing s x with
  | nil => exact ⟨rfl, rfl, rfl, rfl⟩
  | cons e es ih =>
    have he := hmid e (List.mem_cons_self _ _)
    cases e with
    | call n => simp [Event.isProgress] at he
    | ready h rs st body =>
      have hp : ¬ (rs = 4 ∧ st = 200) := by
        intro hd
        simp [Event.isProgress, hd.1, hd.2] at he
      obtain ⟨_, hr, y, hy, hyd⟩ := notify_keeps h rs st body s k x hk hx hnd (Or.inr hp)
      obtain ⟨f1, _, f3, f4, f5, _⟩ := notify_frame h rs st body s
      obtain ⟨g1, g2, g3, g4⟩ := ih (notify h rs st body s).1 y (by rw [f1]; exact hk) hy hyd
        (fun e he => hmid e (List.mem_cons_of_mem _ he))
      exact ⟨by rw [show run (Event.ready h rs st body :: es) s =
                 run es (notify h rs st body s).1 from rfl, g1, hr],
             by rw [show run (Event.ready h rs st body :: es) s =
                 run es (notify h rs st body s).1 from rfl, g2, f3],
             by rw [show run (Event.ready h rs st body :: es) s =
                 run es (notify h rs st body s).1 from rfl, g3, f4],
             by rw [show run (Event.ready h rs st body :: es) s =
                 run es (notify h rs st body s).1 from rfl, g4, f5]⟩

theorem run_ready_keeps (ns : List Event) (s : Page) (hns : ∀ e ∈ ns, e.isReady = true) :
    (run ns s).funcName = s.funcName ∧
    ∀ id, id ≠ "collapse_" ++ jsString s.funcName →
      getPres id (run ns s).regions = getPres id s.regions := by
  induction ns generalizing s with
  | nil => exact ⟨rfl, fun _ _ => rfl⟩
  | cons e es ih =>
    have he := hns e (List.mem_cons_self _ _)
    cases e with
    | call n => simp [Event.isReady] at he
    | ready h rs st body =>
      obtain ⟨_, f2, _⟩ := notify_frame h rs st body s
      obtain ⟨g1, g2⟩ := ih (notify h rs st body s).1
        (fun e he => hns e (List.mem_cons_of_mem _ he))
      have hrun : run (Event.ready h rs st body :: es) s = run es (notify h rs st body s).1 :=
        rfl
      rw [hrun]
      refine ⟨by rw [g1, f2], ?_⟩
      intro id hid
      rw [g2 id (by rw [f2]; exact hid)]
      rcases notify_regions h rs st body s with hr | ⟨_, _, _, _, hr⟩
      · rw [hr]
      · rw [hr, getPres_setFirstPre_ne _ _ _ _ hid]

theorem firstPre_congr (n : String) (s s2 : Page)
    (h : getPres ("collapse_" ++ n) s2.regions = getPres ("collapse_" ++ n) s.regions) :
    firstPre n s2 = firstPre n s := by
  unfold firstPre
  rw [h]

theorem overtaken_region_waits (a b : String) (mid ns : List Event) (s : Page)
    (hc : s.activeXObject = true ∨ s.xmlHttpRequest = true) (hab : a ≠ b)
    (ha : firstPre a s = some "LOADING...") (hb : firstPre b s = some "LOADING...")
    (hmid : ∀ e ∈ mid, e.isProgress = true) (hns : ∀ e ∈ ns, e.isReady = true) :
    firstPre a (run (.call a :: (mid ++ .call b :: ns)) s) = some "LOADING..." := by
  obtain ⟨_, a2, a3, _, a5, a6, ⟨x, hx, hx4, _⟩, _, _⟩ := getFuncCode_pass a s ha hc
  have hrun : run (.call a :: (mid ++ .call b :: ns)) s =
      run ns (getFuncCode b (run mid (getFuncCode a s).1)).1 := by
    show run (mid ++ .call b :: ns) (getFuncCode a s).1 = _
    rw [run_append]
    rfl
  obtain ⟨m1, _, m3, m4⟩ := run_progress mid (getFuncCode a s).1 _ x a2 hx
    (fun h => hx4 h.1) hmid
  have hb1 : firstPre b (run mid (getFuncCode a s).1) = some "LOADING..." := by
    rw [firstPre_congr b s _ (by rw [m1, a3])]
    exact hb
  have hc1 : (run mid (getFuncCode a s).1).activeXObject = true ∨
      (run mid (getFuncCode a s).1).xmlHttpRequest = true := by
    rw [m3, m4, a5, a6]; exact hc
  obtain ⟨b1, _, b3, _⟩ := getFuncCode_pass b _ hb1 hc1
  obtain ⟨_, r2⟩ := run_ready_keeps ns (getFuncCode b (run mid (getFuncCode a s).1)).1 hns
  rw [hrun, firstPre_congr a s _ ?_]
  · exact ha
  · rw [r2 _ ?_, b3, m1, a3]
    rw [b1]
    intro e
    exact hab (collapse_inj a b e)


theorem step_frame (e : Event) (s : Page)
    (hc : s.activeXObject = true ∨ s.xmlHttpRequest = true) :
    (step e s).pid = s.pid ∧ (step e s).activeXObject = s.activeXObject ∧
    (step e s).xmlHttpRequest = s.xmlHttpRequest := by
  cases e with
  | call n =>
    by_cases hg : firstPre n s = some "LOADING..."
    · obtain ⟨_, _, _, h4, h5, h6, _⟩ := getFuncCode_pass n s hg hc
      exact ⟨h4, h5, h6⟩
    · simp only [step, getFuncCode_guard_fail n s hg, and_self]
  | ready h rs st body =>
    obtain ⟨_, _, f3, f4, f5, _⟩ := notify_frame h rs st body s
    exact ⟨f3, f4, f5⟩

theorem run_pid (t : List Event) (s : Page)
    (hc : s.activeXObject = true ∨ s.xmlHttpRequest = true) : (run t s).pid = s.pid := by
  induction t generalizing s with
  | nil => rfl
  | cons e es ih =>
    obtain ⟨h1, h2, h3⟩ := step_frame e s hc
    show (run es (step e s)).pid = s.pid
    rw [ih (step e s) (by rw [h2, h3]; exact hc), h1]

/-- C10: the pairing of the two shared variables.  First part: start from a
freshly loaded page (no transport object, `xmlHttp` undefined) in a browser
that can construct one, and run any sequence of `getFuncCode` calls and
notifications.  If `m` is the identifier of the most recent call that got
past the placeholder guard and `k` the transport object constructed in that
call, then `funcName` is `m`, `xmlHttp` is `k`, and `k` carries the issued
request for `m` when the page has a page id; and whatever a further
notification of any transport object does to the document, it either leaves
all regions as they are or assigns the response text of `k` to the first
`<pre>` of `"collapse_" ++ m`.  Second part: when `getFuncCode a` and then
`getFuncCode b` with `a ≠ b` both get past the guard, with only progress
notifications (not ready state 4 with status 200) between them, the region of
`a` still shows `"LOADING..."` after every sequence of later notifications. -/
theorem slots_stay_paired :
    (∀ (s0 : Page) (t : List Event) (h rs st : Nat) (body : String),
        s0.handles = [] → s0.xmlHttp = none →
        (s0.activeXObject = true ∨ s0.xmlHttpRequest = true) →
        (∀ m k, lastPassed t s0 none = some (m, k) →
          (run t s0).funcName = some m ∧ (run t s0).xmlHttp = some k ∧
          ∃ x, (run t s0).handles[k]? = some x ∧
            ∀ p, s0.pid = some p →
              x.sent = true ∧ x.url = "/funcs?name=" ++ m ++ "&pid=" ++ p) ∧
        ((notify h rs st body (run t s0)).1.regions = (run t s0).regions ∨
          ∃ m k x, lastPassed t s0 none = some (m, k) ∧
            (notify h rs st body (run t s0)).1.handles[k]? = some x ∧
            (notify h rs st body (run t s0)).1.regions =
              setFirstPre ("collapse_" ++ m) x.responseText (run t s0).regions)) ∧
    (∀ (s : Page) (a b : String) (mid ns : List Event),
        (s.activeXObject = true ∨ s.xmlHttpRequest = true) → a ≠ b →
        firstPre a s = some "LOADING..." → firstPre b s = some "LOADING..." →
        (∀ e ∈ mid, e.isProgress = true) → (∀ e ∈ ns, e.isReady = true) →
        firstPre a (run (.call a :: (mid ++ .call b :: ns)) s) = some "LOADING...") := by
  refine ⟨?_, fun s a b mid ns hc hab ha hb hmid hns =>
    overtaken_region_waits a b mid ns s hc hab ha hb hmid hns⟩
  intro s0 t h rs st body h0 h1 hc
  have hT : Tracks (run t s0) (lastPassed t s0 none) := Tracks_run t s0 none hc ⟨h0, h1⟩
  refine ⟨?_, notify_writes_tracked h rs st body _ _ hT⟩
  intro m k hmk
  rw [hmk] at hT
  obtain ⟨t1, t2, x, hx, hurl⟩ := hT
  refine ⟨t1, t2, x, hx, ?_⟩
  intro p hp
  exact hurl p (by rw [run_pid t s0 hc]; exact hp)

/-- Witness of C10 on the example page: after `foo` and then `bar` were
requested, the most recent call past the guard is the one for `bar` with
transport object 1, `funcName` is `bar`, and region `foo` still shows the
placeholder after both requests completed, `bar` first. -/
theorem slots_stay_paired_witness :
    examplePage.handles = [] ∧ examplePage.xmlHttp = none ∧
    lastPassed [.call "foo", .call "bar"] examplePage none = some ("bar", 1) ∧
    (run [.call "foo", .call "bar"] examplePage).funcName = some "bar" ∧
    firstPre "foo"
      (run [.call "foo", .call "bar", .ready 1 4 200 "BBB", .ready 0 4 200 "AAA"] examplePage)
      = some "LOADING..." :=
  ⟨by decide, by decide, by decide,
   ((slots_stay_paired.1 examplePage [.call "foo", .call "bar"] 0 4 200 "AAA"
      (by decide) (by decide) (by decide)).1 "bar" 1 (by decide)).1,
   slots_stay_paired.2 examplePage "foo" "bar" []
     [.ready 1 4 200 "BBB", .ready 0 4 200 "AAA"]
     (by decide) (by decide) (by decide) (by decide) (by decide) (by decide)⟩


/-! ## A completion that arrives after the variables were overwritten -/

theorem two_calls (a b : String) (s : Page)
    (hc : s.activeXObject = true ∨ s.xmlHttpRequest = true)
    (ha : firstPre a s = some "LOADING...") (hb : firstPre b s = some "LOADING...") :
    (run [.call a, .call b] s).xmlHttp = some (s.handles.length + 1) ∧
    (run [.call a, .call b] s).funcName = some b ∧
    (run [.call a, .call b] s).regions = s.regions ∧
    (∃ x, (run [.call a, .call b] s).handles[s.handles.length + 1]? = some x ∧
      x.readyState ≠ 4 ∧
      ∀ p, s.pid = some p → x.sent = true ∧ x.onreadystatechange = true) ∧
    (∀ p, s.pid = some p →
      issued (run [.call a, .call b] s) = issued s ++
        [{ method := "GET", url := "/funcs?name=" ++ a ++ "&pid=" ++ p, async := true },
         { method := "GET", url := "/funcs?name=" ++ b ++ "&pid=" ++ p, async := true }]) := by
  obtain ⟨_, _, a3, a4, a5, a6, _, a8, _⟩ := getFuncCode_pass a s ha hc
  have hb1 : firstPre b (getFuncCode a s).1 = some "LOADING..." := by
    rw [firstPre_congr b s _ (by rw [a3])]; exact hb
  have hc1 : (getFuncCode a s).1.activeXObject = true ∨
      (getFuncCode a s).1.xmlHttpRequest = true := by
    rw [a5, a6]; exact hc
  obtain ⟨b1, b2, b3, _, _, _, ⟨x, hx, hx4, hxs⟩, _, _⟩ :=
    getFuncCode_pass b (getFuncCode a s).1 hb1 hc1
  have hrun : run [.call a, .call b] s = (getFuncCode b (getFuncCode a s).1).1 := rfl
  rw [hrun]
  rw [a8] at b2 hx
  refine ⟨b2, b1, by rw [b3, a3], ⟨x, hx, hx4, ?_⟩, ?_⟩
  · intro p hp
    have := hxs p (by rw [a4]; exact hp)
    exact ⟨this.1, this.2.1⟩
  · intro p hp
    rw [issued_after_request b p _ hb1 (by rw [a4]; exact hp) hc1,
      issued_after_request a p s ha hp hc]
    simp

theorem stale_completion (a b B : String) (s : Page)
    (hc : s.activeXObject = true ∨ s.xmlHttpRequest = true)
    (ha : firstPre a s = some "LOADING...") (hb : firstPre b s = some "LOADING...") :
    (notify s.handles.length 4 200 B (run [.call a, .call b] s)).2 = Completion.normal ∧
    (notify s.handles.length 4 200 B (run [.call a, .call b] s)).1.regions = s.regions := by
  obtain ⟨t1, _, t3, ⟨x, hx, hx4, _⟩, _⟩ := two_calls a b s hc ha hb
  obtain ⟨h1, h2, _⟩ := notify_keeps s.handles.length 4 200 B _ _ x t1 hx
    (fun h => hx4 h.1) (Or.inl (by omega))
  exact ⟨h1, by rw [h2, t3]⟩

/-- C7, as stated, fails.  On the example page, after `foo` and then `bar`
were requested, the completion of the request for `foo` with body `"AAA"`
leaves region `bar` at the placeholder.  And there is no pair of distinct
identifiers and no page on which the body of the first request, whatever it
is, ends up in the region of the second. -/
theorem misrouting_refuted :
    firstPre "bar" (run [.call "foo", .call "bar", .ready 0 4 200 "AAA"] examplePage)
      = some "LOADING..." ∧
    ¬ ∃ (a b : String) (s : Page), a ≠ b ∧
        firstPre a s = some "LOADING..." ∧ firstPre b s = some "LOADING..." ∧
        (s.activeXObject = true ∨ s.xmlHttpRequest = true) ∧
        ∀ B, firstPre b (run [.call a, .call b, .ready s.handles.length 4 200 B] s) = some B := by
  refine ⟨by decide, ?_⟩
  rintro ⟨a, b, s, _, ha, hb, hc, hall⟩
  have h := hall "AAA"
  have hrun : run [.call a, .call b, .ready s.handles.length 4 200 "AAA"] s =
      (notify s.handles.length 4 200 "AAA" (run [.call a, .call b] s)).1 := rfl
  rw [hrun, firstPre_congr b s _ (by rw [(stale_completion a b "AAA" s hc ha hb).2]), hb] at h
  exact absurd h (by decide)

/-- C7 amended: for every pair of distinct identifiers `a` and `b` whose
regions both show the placeholder (page id `p`, a transport constructor
available), when `getFuncCode a` and then `getFuncCode b` are called before
the request for `a` completes: both requests are issued, and the second call
overwrites the shared variables (`xmlHttp` is the second transport object,
`funcName` is `b`).  The completion of the request for `a` with body `Ba`
then runs `okFunc` against the transport object and name of `b`; that object
is not in ready state 4, so the call returns normally and no region changes:
the body of `a` is written nowhere.  When the request for `b` completes with
body `Bb`, region `b` receives `Bb` and region `a` still shows the
placeholder. -/
theorem stale_completion_is_dropped (a b p Ba : String) (s : Page) (hab : a ≠ b)
    (ha : firstPre a s = some "LOADING...") (hb : firstPre b s = some "LOADING...")
    (hp : s.pid = some p) (hc : s.activeXObject = true ∨ s.xmlHttpRequest = true) :
    (run [.call a, .call b] s).xmlHttp = some (s.handles.length + 1) ∧
    (run [.call a, .call b] s).funcName = some b ∧
    issued (run [.call a, .call b] s) = issued s ++
      [{ method := "GET", url := "/funcs?name=" ++ a ++ "&pid=" ++ p, async := true },
       { method := "GET", url := "/funcs?name=" ++ b ++ "&pid=" ++ p, async := true }] ∧
    (notify s.handles.length 4 200 Ba (run [.call a, .call b] s)).2 = Completion.normal ∧
    (notify s.handles.length 4 200 Ba (run [.call a, .call b] s)).1.regions = s.regions ∧
    ∀ Bb,
      firstPre b (run [.call a, .call b, .ready s.handles.length 4 200 Ba,
        .ready (s.handles.length + 1) 4 200 Bb] s) = some Bb ∧
      firstPre a (run [.call a, .call b, .ready s.handles.length 4 200 Ba,
        .ready (s.handles.length + 1) 4 200 Bb] s) = some "LOADING..." := by
  obtain ⟨t1, t2, _, ⟨x, hx, _, hxs⟩, t5⟩ := two_calls a b s hc ha hb
  obtain ⟨n1, n2⟩ := stale_completion a b Ba s hc ha hb
  refine ⟨t1, t2, t5 p hp, n1, n2, ?_⟩
  intro Bb
  obtain ⟨tb, htb⟩ := (firstPre_eq_some b _ s).1 hb
  obtain ⟨ta, hta⟩ := (firstPre_eq_some a _ s).1 ha
  obtain ⟨f1, f2, _⟩ := notify_frame s.handles.length 4 200 Ba (run [.call a, .call b] s)
  obtain ⟨y, hy, ys, _, yh, _⟩ :=
    notify_handle s.handles.length 4 200 Ba (run [.call a, .call b] s) _ x hx
  have hdone := notify_current_done Bb
    (notify s.handles.length 4 200 Ba (run [.call a, .call b] s)).1
    (s.handles.length + 1) y b "LOADING..." tb (by rw [f1, t1]) hy
    (by rw [ys]; exact (hxs p hp).1) (by rw [yh]; exact (hxs p hp).2)
    (by rw [f2, t2]) (by rw [n2]; exact htb)
  have hrun : run [.call a, .call b, .ready s.handles.length 4 200 Ba,
      .ready (s.handles.length + 1) 4 200 Bb] s =
      (notify (s.handles.length + 1) 4 200 Bb
        (notify s.handles.length 4 200 Ba (run [.call a, .call b] s)).1).1 := rfl
  rw [hrun]
  constructor
  · rw [firstPre_eq_some]
    exact ⟨tb, by rw [hdone.2, n2, getPres_setFirstPre_eq _ _ _ _ htb]; rfl⟩
  · rw [firstPre_eq_some]
    refine ⟨ta, ?_⟩
    rw [hdone.2, n2, getPres_setFirstPre_ne _ _ _ _ (fun e => hab (collapse_inj a b e))]
    exact hta

/-- Witness of C7 amended on the example page with `foo` and `bar`. -/
theorem stale_completion_is_dropped_witness :
    "foo" ≠ "bar" ∧ firstPre "foo" examplePage = some "LOADING..." ∧
    firstPre "bar" examplePage = some "LOADING..." ∧ examplePage.pid = some "42" ∧
    (examplePage.activeXObject = true ∨ examplePage.xmlHttpRequest = true) ∧
    (run [.call "foo", .call "bar"] examplePage).funcName = some "bar" ∧
    (notify 0 4 200 "AAA" (run [.call "foo", .call "bar"] examplePage)).1.regions
      = examplePage.regions ∧
    firstPre "bar" (run [.call "foo", .call "bar", .ready 0 4 200 "AAA",
      .ready 1 4 200 "BBB"] examplePage) = some "BBB" :=
  ⟨by decide, by decide, by decide, by decide, by decide,
   (stale_completion_is_dropped "foo" "bar" "42" "AAA" examplePage
      (by decide) (by decide) (by decide) (by decide) (by decide)).2.1,
   (stale_completion_is_dropped "foo" "bar" "42" "AAA" examplePage
      (by decide) (by decide) (by decide) (by decide) (by decide)).2.2.2.2.1,
   ((stale_completion_is_dropped "foo" "bar" "42" "AAA" examplePage
      (by decide) (by decide) (by decide) (by decide) (by decide)).2.2.2.2.2 "BBB").1⟩


/-! ## The keyboard shortcuts -/

theorem animate_not_mem_hides (k : Keys) (t : ScrollTarget) (ms : Nat) :
    Effect.animate t ms ∉
      hideIf k.ep .ep ++ hideIf k.tf .tf ++ hideIf k.ex .ex ++ [Effect.modalHide .keyshortcut] := by
  cases k.ep <;> cases k.tf <;> cases k.ex <;> simp [hideIf]

theorem setHash_not_mem_hides (k : Keys) (h : String) :
    Effect.setHash h ∉
      hideIf k.ep .ep ++ hideIf k.tf .tf ++ hideIf k.ex .ex ++ [Effect.modalHide .keyshortcut] := by
  cases k.ep <;> cases k.tf <;> cases k.ex <;> simp [hideIf]

theorem keypress_b (e : KeyEvent) (k : Keys) (hf : k.focusedInputs = 0) (he : keyOf e = 98) :
    keypress e k =
      ({ k with preKeyG := 0 },
       hideIf k.ep .ep ++ hideIf k.tf .tf ++ hideIf k.ex .ex ++ [Effect.modalHide .keyshortcut] ++
         (if k.preKeyG = 1 then [Effect.animate .bottom 120] else []), none) := by
  simp [keypress, hf, he, GkeyCb]

theorem keypress_i (e : KeyEvent) (k : Keys) (hf : k.focusedInputs = 0) (he : keyOf e = 105) :
    keypress e k =
      ({ k with preKeyG := 0 },
       hideIf k.ep .ep ++ hideIf k.tf .tf ++ hideIf k.ex .ex ++ [Effect.modalHide .keyshortcut] ++
         (if k.preKeyG = 1 then [Effect.setHash "#_index"] else []), none) := by
  simp [keypress, hf, he, GkeyCb]

theorem keypress_g_first (e : KeyEvent) (k : Keys) (hf : k.focusedInputs = 0)
    (he : keyOf e = 103) (hg : k.preKeyG = 0) :
    keypress e k =
      ({ k with preKeyG := 1 },
       hideIf k.ep .ep ++ hideIf k.tf .tf ++ hideIf k.ex .ex ++ [Effect.modalHide .keyshortcut] ++
         [Effect.setTimeout 2000], some false) := by
  simp [keypress, hf, he, hg]

theorem keypress_g_second (e : KeyEvent) (k : Keys) (hf : k.focusedInputs = 0)
    (he : keyOf e = 103) (hg : k.preKeyG = 1) :
    keypress e k =
      ({ k with preKeyG := 0 },
       hideIf k.ep .ep ++ hideIf k.tf .tf ++ hideIf k.ex .ex ++ [Effect.modalHide .keyshortcut] ++
         [Effect.animate .top 120], none) := by
  simp [keypress, hf, he, hg, GkeyCb]

theorem keypress_t (e : KeyEvent) (k : Keys) (hf : k.focusedInputs = 0) (he : keyOf e = 116) :
    keypress e k =
      (k, hideIf k.ep .ep ++ hideIf k.ex .ex ++ [Effect.modalHide .keyshortcut] ++
            (if k.tf then [Effect.modalShow .tf, Effect.onShownFocus .tf "#label_box"] else []),
       none) := by
  simp [keypress, hf, he]

theorem keypress_e (e : KeyEvent) (k : Keys) (hf : k.focusedInputs = 0) (he : keyOf e = 101) :
    keypress e k =
      (k, hideIf k.ep .ep ++ hideIf k.tf .tf ++ [Effect.modalHide .keyshortcut] ++
            (if k.ex then [Effect.modalShow .ex, Effect.onShownFocus .ex "#example_box"] else []),
       none) := by
  simp [keypress, hf, he]

/-- C8: with no input focused, the flag `preKeyG` implements the "g then X"
protocol.  A keypress of `b` (98) animates the scroll to the bottom exactly
when `preKeyG` was 1, and a keypress of `i` (105) sets the location hash to
`"#_index"` exactly when `preKeyG` was 1; in both cases `preKeyG` is 0
afterwards.  A keypress of `g` (103) with `preKeyG` 0 sets `preKeyG` to 1 and
animates no scroll; with `preKeyG` 1 it animates the scroll to the top and
resets `preKeyG` to 0. -/
theorem g_prefix_protocol (e : KeyEvent) (k : Keys) (hf : k.focusedInputs = 0) :
    (keyOf e = 98 →
      (Effect.animate .bottom 120 ∈ (keypress e k).2.1 ↔ k.preKeyG = 1) ∧
      (keypress e k).1.preKeyG = 0) ∧
    (keyOf e = 105 →
      (Effect.setHash "#_index" ∈ (keypress e k).2.1 ↔ k.preKeyG = 1) ∧
      (keypress e k).1.preKeyG = 0) ∧
    (keyOf e = 103 → k.preKeyG = 0 →
      (keypress e k).1.preKeyG = 1 ∧ ∀ t ms, Effect.animate t ms ∉ (keypress e k).2.1) ∧
    (keyOf e = 103 → k.preKeyG = 1 →
      Effect.animate .top 120 ∈ (keypress e k).2.1 ∧ (keypress e k).1.preKeyG = 0) := by
  refine ⟨?_, ?_, ?_, ?_⟩
  · intro he
    rw [keypress_b e k hf he]
    refine ⟨?_, rfl⟩
    have hn := animate_not_mem_hides k .bottom 120
    by_cases hg : k.preKeyG = 1
    · simp [hg]
    · simp only [hg, if_false, List.append_nil, iff_false]
      exact hn
  · intro he
    rw [keypress_i e k hf he]
    refine ⟨?_, rfl⟩
    have hn := setHash_not_mem_hides k "#_index"
    by_cases hg : k.preKeyG = 1
    · simp [hg]
    · simp only [hg, if_false, List.append_nil, iff_false]
      exact hn
  · intro he hg
    rw [keypress_g_first e k hf he hg]
    refine ⟨rfl, ?_⟩
    intro t ms hmem
    rcases List.mem_append.1 hmem with h1 | h1
    · exact animate_not_mem_hides k t ms h1
    · simp at h1
  · intro he hg
    rw [keypress_g_second e k hf he hg]
    exact ⟨by simp, rfl⟩

/-- Witness of C8 on the example keys: `g` arms the flag without scrolling,
a second `g` scrolls to the top and clears it, and `b` without a pending `g`
does not scroll. -/
theorem g_prefix_protocol_witness :
    exampleKeys.focusedInputs = 0 ∧
    (keypress ⟨103, 0⟩ exampleKeys).1.preKeyG = 1 ∧
    Effect.animate .top 120 ∈ (keypress ⟨103, 0⟩ (keypress ⟨103, 0⟩ exampleKeys).1).2.1 ∧
    (Effect.animate .bottom 120 ∈ (keypress ⟨98, 0⟩ exampleKeys).2.1 ↔ exampleKeys.preKeyG = 1) :=
  ⟨by decide,
   ((g_prefix_protocol ⟨103, 0⟩ exampleKeys (by decide)).2.2.1 (by decide) (by decide)).1,
   ((g_prefix_protocol ⟨103, 0⟩ (keypress ⟨103, 0⟩ exampleKeys).1 (by decide)).2.2.2
      (by decide) (by decide)).1,
   ((g_prefix_protocol ⟨98, 0⟩ exampleKeys (by decide)).1 (by decide)).1⟩

/-- C9 on the example keys, with no `g` pending (`preKeyG` is 0): a keypress
of `t` (116) shows the label modal and a keypress of `e` (101) shows the
example modal all the same, and after `g` the key `t` leaves `preKeyG` at 1.
The branches for 116 and 101 do not go through `GkeyCb`. -/
theorem t_and_e_ignore_prefix :
    exampleKeys.focusedInputs = 0 ∧ exampleKeys.preKeyG = 0 ∧
    Effect.modalShow .tf ∈ (keypress ⟨116, 0⟩ exampleKeys).2.1 ∧
    Effect.modalShow .ex ∈ (keypress ⟨101, 0⟩ exampleKeys).2.1 ∧
    (keypress ⟨116, 0⟩ (keypress ⟨103, 0⟩ exampleKeys).1).1.preKeyG = 1 := by
  decide

/-- The keys `t` and `e` act the same whatever `preKeyG` holds: with no input
focused the label modal (the example modal) is shown whenever it exists, and
`preKeyG` is left as it was. -/
theorem t_and_e_always_show (e : KeyEvent) (k : Keys) (hf : k.focusedInputs = 0) :
    (keyOf e = 116 → k.tf = true →
      Effect.modalShow .tf ∈ (keypress e k).2.1 ∧ (keypress e k).1 = k) ∧
    (keyOf e = 101 → k.ex = true →
      Effect.modalShow .ex ∈ (keypress e k).2.1 ∧ (keypress e k).1 = k) := by
  constructor
  · intro he ht
    rw [keypress_t e k hf he]
    exact ⟨by simp [ht], rfl⟩
  · intro he hx
    rw [keypress_e e k hf he]
    exact ⟨by simp [hx], rfl⟩

end Site
